import Mathlib

/-!
Verification of the TaskTriage reconciliation and temporal roll-up scheduler.

This file embeds, as executable Lean definitions, the parts of
`tasktriage/files.py`, `tasktriage/cli.py`, `tasktriage/config.py` and
`tasktriage/gdrive.py` that the verified claims are about: filename
parsing and formatting, the multi-root batch loader with its
existence-plus-mtime reconciliation, the weekly/monthly/annual promotion
schedulers, saving of analyses, the visual-file conversion pass, and the
exit-code logic of the CLI entry point.  Timestamps are natural numbers;
the wall clock counts microseconds since 1969-12-29 00:00:00 (a Monday),
so that a day number modulo 7 equals Python's `datetime.weekday()`
(0 = Monday .. 6 = Sunday); file mtimes are abstract naturals on their
own axis, matching the code, which never compares an mtime with a
datetime.
-/

namespace TaskTriage

/-! ## Calendar and clock arithmetic -/

def usPerDay : Nat := 86400000000

def dayOf (t : Nat) : Nat := t / usPerDay

def weekdayOfDay (d : Nat) : Nat := d % 7

def weekdayOf (t : Nat) : Nat := weekdayOfDay (dayOf t)

/-- Gregorian date (year, month, day) of a day number counted from
1969-12-29; standard civil-from-days algorithm, valid for day numbers
representing dates from 1970 onward. -/
def civilFromDays (z : Nat) : Nat × Nat × Nat :=
  let w := z + 719465
  let era := w / 146097
  let doe := w % 146097
  let yoe := (doe - doe / 1460 + doe / 36524 - doe / 146096) / 365
  let y := yoe + era * 400
  let doy := doe - (365 * yoe + yoe / 4 - yoe / 100)
  let mp := (5 * doy + 2) / 153
  let d := doy - (153 * mp + 2) / 5 + 1
  let m := if mp < 10 then mp + 3 else mp - 9
  (if m ≤ 2 then y + 1 else y, m, d)

/-- Day number (days since 1969-12-29) of a Gregorian date; inverse of
`civilFromDays` on dates from 1970 onward. -/
def daysFromCivil (y m d : Nat) : Nat :=
  let y' := if m ≤ 2 then y - 1 else y
  let era := y' / 400
  let yoe := y' % 400
  let mp := if 2 < m then m - 3 else m + 9
  let doy := (153 * mp + 2) / 5 + d - 1
  let doe := yoe * 365 + yoe / 4 - yoe / 100 + doy
  era * 146097 + doe - 719465

def leapYear (y : Nat) : Bool :=
  y % 4 = 0 && (y % 100 ≠ 0 || y % 400 = 0)

def daysInMonth (y m : Nat) : Nat :=
  if m = 2 then (if leapYear y then 29 else 28)
  else if m = 4 || m = 6 || m = 9 || m = 11 then 30
  else 31

example : civilFromDays 3 = (1970, 1, 1) := by decide
example : daysFromCivil 1970 1 1 = 3 := by decide
example : civilFromDays 20092 = (2025, 1, 1) := by decide
example : weekdayOfDay 20092 = 2 := by decide
example : daysFromCivil 2025 1 6 = 20097 := by decide
example : civilFromDays 20097 = (2025, 1, 6) := by decide
example : weekdayOfDay 20097 = 0 := by decide
example : daysFromCivil 2024 2 29 = 19785 := by decide
example : civilFromDays 19785 = (2024, 2, 29) := by decide
example : daysFromCivil 2024 12 31 = 20091 := by decide
example : civilFromDays 20091 = (2024, 12, 31) := by decide

/-! ## String utilities (Python `pathlib` and `str` behaviour) -/

/-- Two-digit zero padding, as in `strftime` fields `%d` and `%m`. -/
def pad2 (n : Nat) : String :=
  if n < 10 then "0" ++ toString n else toString n

/-- Python `strftime("%d_%m_%Y")` on a date given as (year, month, day). -/
def fmtDMYymd (y m d : Nat) : String :=
  pad2 d ++ "_" ++ pad2 m ++ "_" ++ toString y

/-- Python `strftime("%Y%m%d")` on a date given as (year, month, day). -/
def fmtYMDymd (y m d : Nat) : String :=
  toString y ++ pad2 m ++ pad2 d

/-- Python `strftime("%d_%m_%Y")` on a day number. -/
def fmtDMYday (z : Nat) : String :=
  let c := civilFromDays z
  fmtDMYymd c.1 c.2.1 c.2.2

/-- Python `strftime("%Y%m%d")` on a day number. -/
def fmtYMDday (z : Nat) : String :=
  let c := civilFromDays z
  fmtYMDymd c.1 c.2.1 c.2.2

/-- Python `strftime("%m_%Y")` on (year, month). -/
def fmtMYymd (y m : Nat) : String :=
  pad2 m ++ "_" ++ toString y

example : fmtDMYday 20097 = "06_01_2025" := by decide
example : fmtYMDday 20097 = "20250106" := by decide

/-- Lexicographic comparison of character lists by code point, matching
Python string comparison. -/
def charListLt : List Char → List Char → Bool
  | [], [] => false
  | [], _ :: _ => true
  | _ :: _, [] => false
  | a :: as, b :: bs => if a < b then true else if b < a then false else charListLt as bs

def strLtB (a b : String) : Bool := charListLt a.data b.data

def insertDescStr (x : String) : List String → List String
  | [] => [x]
  | y :: ys => if strLtB y x then x :: y :: ys else y :: insertDescStr x ys

/-- Python `sorted(names, reverse=True)`. -/
def sortDescStr (l : List String) : List String := l.foldr insertDescStr []

def insertAscStr (x : String) : List String → List String
  | [] => [x]
  | y :: ys => if strLtB x y then x :: y :: ys else y :: insertAscStr x ys

/-- Python `sorted(names)`. -/
def sortAscStr (l : List String) : List String := l.foldr insertAscStr []

def insertAscNat (x : Nat) : List Nat → List Nat
  | [] => [x]
  | y :: ys => if x < y then x :: y :: ys else y :: insertAscNat x ys

/-- Python `sorted(years)`. -/
def sortAscNat (l : List Nat) : List Nat := l.foldr insertAscNat []

example : sortDescStr ["a.txt", "c.txt", "b.txt"] = ["c.txt", "b.txt", "a.txt"] := by decide
example : sortAscStr ["b_Page_2.png", "b_Page_1.png"] = ["b_Page_1.png", "b_Page_2.png"] := by decide

def startsWithChars : List Char → List Char → Bool
  | _, [] => true
  | [], _ :: _ => false
  | a :: as, b :: bs => a = b && startsWithChars as bs

def hasInfixChars (pat : List Char) : List Char → Bool
  | [] => pat.isEmpty
  | c :: cs => startsWithChars (c :: cs) pat || hasInfixChars pat cs

/-- Python `sub in s` substring test. -/
def containsSub (s sub : String) : Bool := hasInfixChars sub.data s.data

example : containsSub "31_12_2025.triaged.txt" ".triaged." = true := by decide
example : containsSub "20251231_143000.txt" ".triaged." = false := by decide

def lastDotIdxAux : List Char → Nat → Option Nat
  | [], _ => none
  | c :: cs, i =>
    match lastDotIdxAux cs (i + 1) with
    | some j => some j
    | none => if c = '.' then some i else none

/-- Index of the last '.' in a character list, if any. -/
def lastDotPos (cs : List Char) : Option Nat := lastDotIdxAux cs 0

/-- Python `pathlib.PurePath(name).stem`: the name with its final suffix
removed, where a suffix starts at the last dot that is neither the first
nor past the last character. -/
def stemOf (name : String) : String :=
  let cs := name.data
  match lastDotPos cs with
  | none => name
  | some i => if 0 < i ∧ i + 1 < cs.length then ⟨cs.take i⟩ else name

/-- Python `pathlib.PurePath(name).suffix.lower()`. -/
def suffixLower (name : String) : String :=
  let cs := name.data
  match lastDotPos cs with
  | none => ""
  | some i => if 0 < i ∧ i + 1 < cs.length then ⟨(cs.drop i).map Char.toLower⟩ else ""

example : stemOf "20251225_073454.txt" = "20251225_073454" := by decide
example : stemOf "06_01_2025.triaged.txt" = "06_01_2025.triaged" := by decide
example : stemOf "20250106.week.txt" = "20250106.week" := by decide
example : suffixLower "a.PNG" = ".png" := by decide
example : suffixLower "noext" = "" := by decide
example : stemOf ".txt" = ".txt" := by decide

/-! ## Naming codec -/

/-- Visual source-file extensions.  Modelled from the spec: the module
`tasktriage/image.py`, which defines `VISUAL_EXTENSIONS`, is not in the
source tree; the spec's filename convention names `png` and `pdf` as the
visual (image/PDF) leaf-source kinds, matching `VISUAL_MIME_TYPES` in
`tasktriage/gdrive.py`. -/
def visualExtensions : List String := [".png", ".pdf"]

def textExtensions : List String := [".txt"]

def isVisualName (name : String) : Bool :=
  visualExtensions.contains (suffixLower name)

/-- Python `s.split(pat)[0]` for a non-empty pattern: everything before the
first occurrence of `pat` (the whole list when `pat` does not occur). -/
def takeBeforeInfix (pat : List Char) : List Char → List Char
  | [] => []
  | c :: cs => if startsWithChars (c :: cs) pat then [] else c :: takeBeforeInfix pat cs

/-- Python `s.split(sep)` for a single-character separator. -/
def splitOnChar (sep : Char) : List Char → List (List Char)
  | [] => [[]]
  | c :: cs =>
    if c = sep then [] :: splitOnChar sep cs
    else
      match splitOnChar sep cs with
      | [] => [[c]]
      | p :: ps => (c :: p) :: ps

example : splitOnChar '_' "06_01_2025".data = ["06".data, "01".data, "2025".data] := by decide
example : takeBeforeInfix "_Page_".data "20251225_073454_Page_2".data = "20251225_073454".data := by decide

/-- `files._extract_timestamp`: strip an optional `_Page_N` token from the
stem, then demand a 15-character body with `_` at index 8. -/
def extractTimestamp (filename : String) : Option String :=
  let stem := (stemOf filename).data
  let stem := takeBeforeInfix "_Page_".data stem
  if stem.length = 15 ∧ stem[8]? = some '_' then some ⟨stem⟩ else none

/-- `gdrive.extract_timestamp_from_filename`: like `files._extract_timestamp`
but first truncates the stem at its first dot. -/
def extractTimestampG (filename : String) : Option String :=
  let stem := (stemOf filename).data
  let stem := takeBeforeInfix ['.'] stem
  let stem := takeBeforeInfix "_Page_".data stem
  if stem.length = 15 ∧ stem[8]? = some '_' then some ⟨stem⟩ else none

example : extractTimestamp "20251225_073454.txt" = some "20251225_073454" := by decide
example : extractTimestamp "20251225_073454_Page_2.png" = some "20251225_073454" := by decide
example : extractTimestamp "20250106.week.txt" = none := by decide
example : extractTimestamp "06_01_2025.triaged.txt" = none := by decide
example : extractTimestampG "20250106.week.txt" = none := by decide
example : extractTimestampG "20251225_073454.raw_notes.txt" = some "20251225_073454" := by decide

/-! ## Date parsing (`strptime` embeddings) -/

def digitVal (c : Char) : Nat := c.toNat - 48

def digitsVal (cs : List Char) : Nat := cs.foldl (fun acc c => acc * 10 + digitVal c) 0

def allDigits (cs : List Char) : Bool := cs.all Char.isDigit

example : digitsVal ['2', '0', '2', '5'] = 2025 := by decide

def validYMD (y m d : Nat) : Bool :=
  1 ≤ y && y ≤ 9999 && 1 ≤ m && m ≤ 12 && 1 ≤ d && d ≤ daysInMonth y m

/-- Python `datetime.strptime(s, "%Y%m%d")` on an 8-character candidate:
4-2-2 digit split plus calendar validation.  Returns (year, month, day). -/
def parseYMD8 (s : String) : Option (Nat × Nat × Nat) :=
  match s.data with
  | [a, b, c, d, e, f, g, h] =>
    if allDigits [a, b, c, d, e, f, g, h] then
      let y := digitsVal [a, b, c, d]
      let m := digitsVal [e, f]
      let day := digitsVal [g, h]
      if validYMD y m day then some (y, m, day) else none
    else none
  | _ => none

/-- Python `datetime.strptime(s, "%d_%m_%Y")`: one or two digits for day and
month, one to four digits for the year, underscore separated, with calendar
validation.  Returns (year, month, day). -/
def parseDMY (s : String) : Option (Nat × Nat × Nat) :=
  match splitOnChar '_' s.data with
  | [dc, mc, yc] =>
    if allDigits dc && allDigits mc && allDigits yc &&
        decide (1 ≤ dc.length) && decide (dc.length ≤ 2) &&
        decide (1 ≤ mc.length) && decide (mc.length ≤ 2) &&
        decide (1 ≤ yc.length) && decide (yc.length ≤ 4) then
      let y := digitsVal yc
      let m := digitsVal mc
      let d := digitsVal dc
      if validYMD y m d then some (y, m, d) else none
    else none
  | _ => none

/-- Python `datetime.strptime(s, "%m_%Y")`.  Returns (year, month). -/
def parseMY (s : String) : Option (Nat × Nat) :=
  match splitOnChar '_' s.data with
  | [mc, yc] =>
    if allDigits mc && allDigits yc &&
        decide (1 ≤ mc.length) && decide (mc.length ≤ 2) &&
        decide (1 ≤ yc.length) && decide (yc.length ≤ 4) then
      let y := digitsVal yc
      let m := digitsVal mc
      if 1 ≤ y && 1 ≤ m && m ≤ 12 then some (y, m) else none
    else none
  | _ => none

example : parseYMD8 "20250106" = some (2025, 1, 6) := by decide
example : parseYMD8 "20250230" = none := by decide
example : parseDMY "06_01_2025" = some (2025, 1, 6) := by decide
example : parseDMY "6_1_2025" = some (2025, 1, 6) := by decide
example : parseDMY "20250106" = none := by decide
example : parseDMY "01_2025" = none := by decide
example : parseMY "01_2025" = some (2025, 1) := by decide

/-! ## `gdrive.parse_filename_datetime` -/

/-- A parsed datetime value: the result of `strptime` in
`parse_filename_datetime`. -/
structure DateTimeV where
  year : Nat
  month : Nat
  day : Nat
  hour : Nat
  minute : Nat
  second : Nat
deriving DecidableEq, Repr

/-- Microseconds timestamp of a parsed datetime (for Python datetime
comparisons). -/
def toUsDT (dt : DateTimeV) : Nat :=
  daysFromCivil dt.year dt.month dt.day * usPerDay +
    ((dt.hour * 60 + dt.minute) * 60 + dt.second) * 1000000

/-- Take exactly `k` leading digits, returning them and the rest. -/
def takeDigits : Nat → List Char → Option (List Char × List Char)
  | 0, cs => some ([], cs)
  | _ + 1, [] => none
  | k + 1, c :: cs =>
    if c.isDigit then (takeDigits k cs).map (fun p => (c :: p.1, p.2)) else none

/-- Try a window-matcher at every position, leftmost first, like
`re.search`. -/
def searchWindow {α : Type} (f : List Char → Option α) : List Char → Option α
  | [] => f []
  | c :: cs =>
    match f (c :: cs) with
    | some r => some r
    | none => searchWindow f cs

/-- The regex `\d8_\d6` anchored at the current position. -/
def matchTs15 (cs : List Char) : Option (List Char × List Char) :=
  match takeDigits 8 cs with
  | none => none
  | some (d8, rest) =>
    match rest with
    | '_' :: rest2 => (takeDigits 6 rest2).map (fun p => (d8, p.1))
    | _ => none

/-- The regex `\dk` anchored at the current position. -/
def matchDigits (k : Nat) (cs : List Char) : Option (List Char) :=
  (takeDigits k cs).map Prod.fst

def mkDate8 (ds : List Char) : Option (Nat × Nat × Nat) :=
  match ds with
  | [a, b, c, d, e, f, g, h] =>
    let y := digitsVal [a, b, c, d]
    let m := digitsVal [e, f]
    let day := digitsVal [g, h]
    if validYMD y m day then some (y, m, day) else none
  | _ => none

def mkTime6 (ts : List Char) : Option (Nat × Nat × Nat) :=
  match ts with
  | [a, b, c, d, e, f] =>
    let h := digitsVal [a, b]
    let mi := digitsVal [c, d]
    let s := digitsVal [e, f]
    if h ≤ 23 && mi ≤ 59 && s ≤ 59 then some (h, mi, s) else none
  | _ => none

def tryPat15 (cs : List Char) : Option DateTimeV :=
  match searchWindow matchTs15 cs with
  | none => none
  | some (d8, t6) =>
    match mkDate8 d8, mkTime6 t6 with
    | some (y, m, d), some (h, mi, s) => some ⟨y, m, d, h, mi, s⟩
    | _, _ => none

def tryPat8 (cs : List Char) : Option DateTimeV :=
  match searchWindow (matchDigits 8) cs with
  | none => none
  | some ds =>
    match mkDate8 ds with
    | some (y, m, d) => some ⟨y, m, d, 0, 0, 0⟩
    | none => none

def tryPat6 (cs : List Char) : Option DateTimeV :=
  match searchWindow (matchDigits 6) cs with
  | none => none
  | some ds =>
    match ds with
    | [a, b, c, d, e, f] =>
      let y := digitsVal [a, b, c, d]
      let m := digitsVal [e, f]
      if 1 ≤ y && 1 ≤ m && m ≤ 12 then some ⟨y, m, 1, 0, 0, 0⟩ else none
    | _ => none

def tryPat4 (cs : List Char) : Option DateTimeV :=
  match searchWindow (matchDigits 4) cs with
  | none => none
  | some ds =>
    let y := digitsVal ds
    if 1 ≤ y then some ⟨y, 1, 1, 0, 0, 0⟩ else none

/-- `gdrive.parse_filename_datetime` on a character list: the patterns
`\d8_\d6`, `\d8`, `\d6`, `\d4` are tried in this fixed order; for each,
the leftmost regex match is submitted to `strptime`, and a `ValueError`
(modelled by a failed validation) falls through to the next pattern. -/
def parseFilenameDatetimeL (cs : List Char) : Option DateTimeV :=
  match tryPat15 cs with
  | some r => some r
  | none =>
    match tryPat8 cs with
    | some r => some r
    | none =>
      match tryPat6 cs with
      | some r => some r
      | none => tryPat4 cs

/-- `gdrive.parse_filename_datetime`.  Total by construction: every input
string yields `some` datetime or `none`, never an error. -/
def parseFilenameDatetime (s : String) : Option DateTimeV :=
  parseFilenameDatetimeL s.data

example : parseFilenameDatetime "20251225_073454.txt" = some ⟨2025, 12, 25, 7, 34, 54⟩ := by decide
example : parseFilenameDatetime "20251225_073454_Page_1.png" = some ⟨2025, 12, 25, 7, 34, 54⟩ := by decide
example : parseFilenameDatetime "06_01_2025.triaged.txt" = some ⟨2025, 1, 1, 0, 0, 0⟩ := by decide
example : parseFilenameDatetime "20250106.week.txt" = some ⟨2025, 1, 6, 0, 0, 0⟩ := by decide
example : parseFilenameDatetime "hello.txt" = none := by decide
example : parseFilenameDatetime "99999999_123456.txt" = some ⟨9999, 1, 1, 0, 0, 0⟩ := by decide
example : parseFilenameDatetime "abc_123.txt" = none := by decide

/-! ## Filesystem model

A file system is a list of files (path, mtime, content) plus a list of
directories that exist even when empty; a directory also exists whenever
some file lives strictly below it.  Paths are component lists; the head
component identifies the configured root. -/

structure FSFile where
  path : List String
  mtime : Nat
  content : String
deriving DecidableEq, Repr

structure FS where
  files : List FSFile
  dirs : List (List String)
deriving DecidableEq, Repr

def isPathPrefix : List String → List String → Bool
  | [], _ => true
  | _ :: _, [] => false
  | a :: as, b :: bs => decide (a = b) && isPathPrefix as bs

def lookupFile (fs : FS) (p : List String) : Option FSFile :=
  fs.files.find? (fun f => decide (f.path = p))

def fsExists (fs : FS) (p : List String) : Bool := (lookupFile fs p).isSome

def existsDir (fs : FS) (d : List String) : Bool :=
  fs.dirs.any (fun x => decide (x = d)) ||
    fs.files.any (fun f => isPathPrefix d f.path && decide (d.length < f.path.length))

def mtimeOf (fs : FS) (p : List String) : Option Nat := (lookupFile fs p).map FSFile.mtime

def readText (fs : FS) (p : List String) : Option String := (lookupFile fs p).map FSFile.content

def fsWriteFiles : List FSFile → List String → String → Nat → List FSFile
  | [], p, c, t => [⟨p, t, c⟩]
  | f :: rest, p, c, t =>
    if f.path = p then ⟨p, t, c⟩ :: rest else f :: fsWriteFiles rest p c t

/-- Overwrite-in-place write (Python `Path.write_text`); creates the file,
and implicitly its parent directories, when absent. -/
def fsWrite (fs : FS) (p : List String) (c : String) (t : Nat) : FS :=
  ⟨fsWriteFiles fs.files p c t, fs.dirs⟩

def endsWithChars (cs pat : List Char) : Bool := startsWithChars cs.reverse pat.reverse

def nameEndsWith (n e : String) : Bool := endsWithChars n.data e.data

/-- Names of the files directly inside `dir` (non-recursive, like
`Path.glob` on a single level), in file-system order. -/
def listDir (fs : FS) (dir : List String) : List String :=
  fs.files.filterMap (fun f =>
    if f.path.length = dir.length + 1 && isPathPrefix dir f.path then f.path.getLast? else none)

/-! ## Configuration (`tasktriage/config.py`) -/

structure Config where
  usbInputDir : Option (List String)
  localInputDir : Option (List String)
deriving Repr

/-- `config.is_usb_available`. -/
def isUsbAvailable (fs : FS) (cfg : Config) : Bool :=
  match cfg.usbInputDir with
  | none => false
  | some d => existsDir fs d

/-- `config.is_local_input_available`. -/
def isLocalInputAvailable (fs : FS) (cfg : Config) : Bool :=
  match cfg.localInputDir with
  | none => false
  | some d => existsDir fs d

/-- `config.get_all_input_directories`: the USB root first, then the local
root, each only when configured and existing. -/
def getAllInputDirectories (fs : FS) (cfg : Config) : List (List String) :=
  (if isUsbAvailable fs cfg then [cfg.usbInputDir.getD []] else []) ++
    (if isLocalInputAvailable fs cfg then [cfg.localInputDir.getD []] else [])

/-- `config.get_primary_input_directory`: USB preferred, then local;
`none` models the `ValueError` when neither is available. -/
def getPrimaryInputDirectory (fs : FS) (cfg : Config) : Option (List String) :=
  if isUsbAvailable fs cfg then cfg.usbInputDir
  else if isLocalInputAvailable fs cfg then cfg.localInputDir
  else none

/-! ## Reconciliation engine (USB batch loader, `files.py`) -/

/-- `files._get_week_of_month`: day-of-month buckets 1-7, 8-14, 15-21,
22-31. -/
def getWeekOfMonth (d : Nat) : Nat :=
  if d ≤ 7 then 1 else if d ≤ 14 then 2 else if d ≤ 21 then 3 else 4

def granularities : List String := ["daily", "weekly", "monthly", "annual"]

def isGranularity (notesType : String) : Bool :=
  granularities.any (fun g => decide (g = notesType))

/-- The per-granularity analysis date label computed (identically) in
`_load_task_notes_usb`, `_load_all_unanalyzed_task_notes_usb` and the
gdrive loaders: `DD_MM_YYYY` for daily, `weekN_MM_YYYY` for weekly,
`MM_YYYY` for monthly, `YYYY` for annual. -/
def analysisDateStr (notesType : String) (y m d : Nat) : String :=
  if notesType = "daily" then fmtDMYymd y m d
  else if notesType = "weekly" then
    "week" ++ toString (getWeekOfMonth d) ++ "_" ++ fmtMYymd y m
  else if notesType = "monthly" then fmtMYymd y m
  else if notesType = "annual" then toString y
  else fmtDMYymd y m d

/-- `files._needs_reanalysis_usb`: true when the analysis exists and either
the notes file, or (for visual kinds) its `raw_notes` sidecar, has a
strictly greater mtime than the analysis. -/
def needsReanalysisUsb (fs : FS) (notesPath analysisPath : List String) : Bool :=
  match mtimeOf fs analysisPath with
  | none => false
  | some am =>
    let name := notesPath.getLastD ""
    let notesNewer :=
      match mtimeOf fs notesPath with
      | some nm => decide (am < nm)
      | none => false
    let sidecarNewer :=
      if isVisualName name then
        match extractTimestamp name with
        | some ts =>
          match mtimeOf fs (notesPath.dropLast ++ [ts ++ ".raw_notes.txt"]) with
          | some sm => decide (am < sm)
          | none => false
        | none => false
      else false
    notesNewer || sidecarNewer

structure LoadedItem where
  content : String
  path : List String
  date : DateTimeV
deriving DecidableEq, Repr

/-- Candidate files of a directory for a preference: glob of each search
extension, then `sorted(..., reverse=True)`. -/
def candidateNames (fs : FS) (notesDir : List String) (pref : String) : List String :=
  let exts := if pref = "txt" then textExtensions else visualExtensions
  sortDescStr ((listDir fs notesDir).filter (fun n => exts.any (fun e => nameEndsWith n e)))

/-- The per-file checks of one loop iteration of
`_load_all_unanalyzed_task_notes_usb`, in source order (triaged marker,
timestamp, dedup against the seen set, date parse, existence plus
staleness, datetime parse, sidecar/content read); `some (ts, item)` means
the file is appended to the batch and `ts` to the seen set. -/
def evalBatchCandidateUsb (fs : FS) (notesType : String) (notesDir : List String)
    (seen : List String) (name : String) : Option (String × LoadedItem) :=
  if containsSub name ".triaged." then none
  else
    match extractTimestamp name with
    | none => none
    | some ts =>
      if seen.any (fun x => decide (x = ts)) then none
      else
        match parseYMD8 ⟨ts.data.take 8⟩ with
        | none => none
        | some (y, m, d) =>
          let analysisFilename := analysisDateStr notesType y m d ++ ".triaged.txt"
          let analysisPath :=
            if isGranularity notesType then notesDir ++ [notesType, analysisFilename]
            else notesDir ++ [analysisFilename]
          let notesPath := notesDir ++ [name]
          if !fsExists fs analysisPath || needsReanalysisUsb fs notesPath analysisPath then
            match parseFilenameDatetime name with
            | none => none
            | some fd =>
              if isVisualName name then
                match readText fs (notesDir ++ [ts ++ ".raw_notes.txt"]) with
                | some c => some (ts, ⟨c, notesPath, fd⟩)
                | none => none
              else
                match readText fs notesPath with
                | some c => some (ts, ⟨c, notesPath, fd⟩)
                | none => none
          else none

/-- One loop iteration of `_load_all_unanalyzed_task_notes_usb`: run the
per-file checks against the current seen set and append on success. -/
def processFileUsb (fs : FS) (notesType : String) (notesDir : List String)
    (st : List LoadedItem × List String) (name : String) :
    List LoadedItem × List String :=
  match evalBatchCandidateUsb fs notesType notesDir st.2 name with
  | none => st
  | some (ts, it) => (st.1 ++ [it], st.2 ++ [ts])

/-- The directory-scanning loop of `_load_all_unanalyzed_task_notes_usb`:
fold the per-file step over every configured root's candidate list (top
level for daily notes, the granularity subdirectory otherwise, skipping
absent directories). -/
def scanAllUsb (fs : FS) (cfg : Config) (notesType pref : String) :
    List LoadedItem × List String :=
  (getAllInputDirectories fs cfg).foldl (fun st base =>
    let notesDir := if notesType = "daily" then base else base ++ [notesType]
    if existsDir fs notesDir then
      (candidateNames fs notesDir pref).foldl (processFileUsb fs notesType notesDir) st
    else st) (([], []) : List LoadedItem × List String)

/-- `files._load_all_unanalyzed_task_notes_usb`: scan every configured root
in priority order, dedup by timestamp, and raise (`.error`) both when no
root is available and when every candidate was filtered out. -/
def loadAllUsb (fs : FS) (cfg : Config) (notesType pref : String) :
    Except String (List LoadedItem) :=
  if (getAllInputDirectories fs cfg).isEmpty then
    .error "No input directories configured or available"
  else
    let st := scanAllUsb fs cfg notesType pref
    if st.1.isEmpty then
      .error "No unanalyzed notes files found in any configured input directory"
    else .ok st.1

/-- One candidate of `_load_task_notes_usb` (the single-item legacy entry
point): the same filters as the batch loop, without the seen set. -/
def evalFirstCandidateUsb (fs : FS) (notesType : String) (notesDir : List String)
    (name : String) : Option LoadedItem :=
  if containsSub name ".triaged." then none
  else
    match extractTimestamp name with
    | none => none
    | some ts =>
      match parseYMD8 ⟨ts.data.take 8⟩ with
      | none => none
      | some (y, m, d) =>
        let analysisFilename := analysisDateStr notesType y m d ++ ".triaged.txt"
        let analysisPath :=
          if isGranularity notesType then notesDir ++ [notesType, analysisFilename]
          else notesDir ++ [analysisFilename]
        let notesPath := notesDir ++ [name]
        if !fsExists fs analysisPath || needsReanalysisUsb fs notesPath analysisPath then
          match parseFilenameDatetime name with
          | none => none
          | some fd =>
            if isVisualName name then
              match readText fs (notesDir ++ [ts ++ ".raw_notes.txt"]) with
              | some c => some ⟨c, notesPath, fd⟩
              | none => none
            else
              match readText fs notesPath with
              | some c => some ⟨c, notesPath, fd⟩
              | none => none
        else none

/-- `files._load_task_notes_usb`: return the first qualifying file, raising
(`.error`) when there is none. -/
def loadFirstUsb (fs : FS) (cfg : Config) (notesType pref : String) :
    Except String LoadedItem :=
  let inputDirs := getAllInputDirectories fs cfg
  if inputDirs.isEmpty then .error "No input directories configured or available"
  else
    match inputDirs.findSome? (fun base =>
      let notesDir := if notesType = "daily" then base else base ++ [notesType]
      if existsDir fs notesDir then
        (candidateNames fs notesDir pref).findSome? (evalFirstCandidateUsb fs notesType notesDir)
      else none) with
    | some it => .ok it
    | none => .error "No unanalyzed notes files found in any configured input directory"

/-- `files._save_analysis_usb`: canonical output name from the extracted
timestamp (date-formatted per granularity, stem fallback), written into the
granularity subdirectory next to the input, overwriting in place.  Returns
the updated file system and the output path. -/
def saveAnalysisUsb (fs : FS) (analysis : String) (inputPath : List String)
    (notesType : String) (now : Nat) : FS × List String :=
  let name := inputPath.getLastD ""
  let dateStr :=
    match extractTimestamp name with
    | some ts =>
      match parseYMD8 ⟨ts.data.take 8⟩ with
      | some (y, m, d) =>
        if notesType = "daily" then fmtDMYymd y m d
        else if notesType = "weekly" then fmtDMYymd y m d
        else if notesType = "monthly" then fmtMYymd y m
        else if notesType = "annual" then toString y
        else fmtDMYymd y m d
      | none => ⟨ts.data.take 8⟩
    | none => stemOf name
  let outputFilename := dateStr ++ ".triaged.txt"
  let outDir :=
    if isGranularity notesType then inputPath.dropLast ++ [notesType]
    else inputPath.dropLast
  let outPath := outDir ++ [outputFilename]
  let formatted := "Triaged Tasks\n" ++ String.mk (List.replicate 40 '=') ++ "\n\n" ++ analysis ++ "\n"
  (fsWrite fs outPath formatted now, outPath)

/-! ## Temporal promotion scheduler (`files.py`) -/

/-- `files._get_week_boundaries`: Monday 00:00:00.000000 and Friday
23:59:59.999999 of the work week containing the given instant. -/
def getWeekBoundaries (t : Nat) : Nat × Nat :=
  let d := dayOf t
  let monday := d - weekdayOfDay d
  (monday * usPerDay, (monday + 4) * usPerDay + (usPerDay - 1))

/-- `files._get_month_boundaries`: first day 00:00:00.000000 and last day
23:59:59.999999 of the calendar month containing the given instant. -/
def getMonthBoundaries (t : Nat) : Nat × Nat :=
  let c := civilFromDays (dayOf t)
  let y := c.1
  let m := c.2.1
  let startDay := daysFromCivil y m 1
  let nextStart := if m = 12 then daysFromCivil (y + 1) 1 1 else daysFromCivil y (m + 1) 1
  (startDay * usPerDay, (nextStart - 1) * usPerDay + (usPerDay - 1))

example : getWeekBoundaries (20092 * usPerDay) = (20090 * usPerDay, 20094 * usPerDay + (usPerDay - 1)) := by decide
example : getMonthBoundaries (20097 * usPerDay) = (20092 * usPerDay, 20122 * usPerDay + (usPerDay - 1)) := by decide

/-- One group of the `weeks_map` / `months_map` dictionaries: period start,
period end, and the member dates in insertion order. -/
structure PeriodGroup where
  start : Nat
  stop : Nat
  dates : List Nat
deriving DecidableEq, Repr

def lookupKey (k : Nat) : List (Nat × PeriodGroup) → Option PeriodGroup
  | [] => none
  | (k', g) :: rest => if k' = k then some g else lookupKey k rest

/-- Append a date to its keyed group, creating the group (at the end, as
Python dict insertion order does) when absent. -/
def addToGroup : List (Nat × PeriodGroup) → Nat → Nat → Nat → Nat → List (Nat × PeriodGroup)
  | [], k, s, e, t => [(k, ⟨s, e, [t]⟩)]
  | (k', g) :: rest, k, s, e, t =>
    if k' = k then (k', ⟨g.start, g.stop, g.dates ++ [t]⟩) :: rest
    else (k', g) :: addToGroup rest k s e t

/-- Insert one date into the period map; the key is the period-start day
(the `strftime` key strings of the source are injective images of it). -/
def insertPeriod (bounds : Nat → Nat × Nat) (m : List (Nat × PeriodGroup)) (t : Nat) :
    List (Nat × PeriodGroup) :=
  let b := bounds t
  addToGroup m (dayOf b.1) b.1 b.2 t

def groupPeriods (bounds : Nat → Nat × Nat) (dates : List Nat) : List (Nat × PeriodGroup) :=
  dates.foldl (insertPeriod bounds) []

/-- The per-week decision of `_find_weeks_needing_analysis`: skip when a
weekly analysis exists; emit on 5 or more weekday members, or when the
week has ended and the group is non-empty. -/
def emitWeek (existsW : Nat → Bool) (today : Nat) (kg : Nat × PeriodGroup) :
    Option (Nat × Nat) :=
  let g := kg.2
  if existsW g.start then none
  else if 5 ≤ (g.dates.filter (fun d => weekdayOf d < 5)).length then some (g.start, g.stop)
  else if g.stop < today ∧ 0 < g.dates.length then some (g.start, g.stop)
  else none

/-- The grouping-and-decision core of `files._find_weeks_needing_analysis`,
taking the collected daily-analysis dates, the weekly-existence check and
the current time as inputs. -/
def findWeeksCore (dates : List Nat) (existsW : Nat → Bool) (today : Nat) :
    List (Nat × Nat) :=
  (groupPeriods getWeekBoundaries dates).filterMap (emitWeek existsW today)

/-- `files._weekly_analysis_exists` (USB branch): look for
`weekly/DD_MM_YYYY.triaged.txt` under the primary root, keyed by the week
start. -/
def weeklyAnalysisExistsUsb (fs : FS) (cfg : Config) (weekStart : Nat) : Bool :=
  let weekLabel := fmtDMYday (dayOf weekStart)
  match getPrimaryInputDirectory fs cfg with
  | none => false
  | some base =>
    let weeklyDir := base ++ ["weekly"]
    if !existsDir fs weeklyDir then false
    else fsExists fs (weeklyDir ++ [weekLabel ++ ".triaged.txt"])

/-- The daily-analysis dates collected by `_find_weeks_needing_analysis`
(USB branch): parse `DD_MM_YYYY` from the stems of
`daily/*.triaged.txt` under the primary root, as midnight instants. -/
def collectDailyDatesUsb (fs : FS) (cfg : Config) : List Nat :=
  match getPrimaryInputDirectory fs cfg with
  | none => []
  | some base =>
    let dailyDir := base ++ ["daily"]
    if existsDir fs dailyDir then
      ((listDir fs dailyDir).filter (fun n => nameEndsWith n ".triaged.txt")).filterMap
        (fun n =>
          match parseDMY ⟨takeBeforeInfix ['.'] (stemOf n).data⟩ with
          | some (y, m, d) => some (daysFromCivil y m d * usPerDay)
          | none => none)
    else []

/-- `files._find_weeks_needing_analysis` (USB branch). -/
def findWeeksUsb (fs : FS) (cfg : Config) (today : Nat) : List (Nat × Nat) :=
  findWeeksCore (collectDailyDatesUsb fs cfg) (weeklyAnalysisExistsUsb fs cfg) today

/-- `files._collect_weekly_analyses_usb_for_week`: gather the daily
analyses of the given work week from every root (deduplicated by date
label), and name the weekly output `weekly/YYYYMMDD.week.txt` under the
primary root.  The date labels and joined text of the source are elided:
no claim concerns the combined prose, only which files are collected and
the output path.  Returns the collected (date, content) pairs and the
output path. -/
def collectWeeklyUsb (fs : FS) (cfg : Config) (weekStart weekEnd : Nat) :
    Except String (List (Nat × String) × List String) :=
  let inputDirs := getAllInputDirectories fs cfg
  if inputDirs.isEmpty then .error "No input directories configured or available"
  else
    let collected := (inputDirs.foldl (fun st base =>
      let dailyDir := base ++ ["daily"]
      if existsDir fs dailyDir then
        (sortAscStr ((listDir fs dailyDir).filter (fun n => nameEndsWith n ".triaged.txt"))).foldl
          (fun (st : List (Nat × String) × List String) n =>
            let dateStr : String := ⟨takeBeforeInfix ['.'] (stemOf n).data⟩
            match parseDMY dateStr with
            | none => st
            | some (y, m, d) =>
              if st.2.any (fun x => decide (x = dateStr)) then st
              else
                let t := daysFromCivil y m d * usPerDay
                if weekStart ≤ t ∧ t ≤ weekEnd then
                  match readText fs (dailyDir ++ [n]) with
                  | some c => (st.1 ++ [(t, c)], st.2 ++ [dateStr])
                  | none => st
                else st) st
      else st) (([], []) : List (Nat × String) × List String)).1
    if collected.isEmpty then .error "No daily analysis files found for the week"
    else
      match getPrimaryInputDirectory fs cfg with
      | none => .error "No primary input directory available"
      | some primary =>
        let weekLabel := fmtYMDday (dayOf weekStart)
        .ok (collected, primary ++ ["weekly", weekLabel ++ ".week.txt"])

/-- `files._monthly_analysis_exists` (USB branch):
`monthly/MM_YYYY.triaged.txt` under the primary root. -/
def monthlyAnalysisExistsUsb (fs : FS) (cfg : Config) (monthStart : Nat) : Bool :=
  let c := civilFromDays (dayOf monthStart)
  let monthLabel := fmtMYymd c.1 c.2.1
  match getPrimaryInputDirectory fs cfg with
  | none => false
  | some base =>
    let monthlyDir := base ++ ["monthly"]
    if !existsDir fs monthlyDir then false
    else fsExists fs (monthlyDir ++ [monthLabel ++ ".triaged.txt"])

/-- The per-month decision of `_find_months_needing_analysis`: emit on 4 or
more weekly members, or when the month has ended and the group is
non-empty. -/
def emitMonth (existsM : Nat → Bool) (today : Nat) (kg : Nat × PeriodGroup) :
    Option (Nat × Nat) :=
  let g := kg.2
  if existsM g.start then none
  else if 4 ≤ g.dates.length then some (g.start, g.stop)
  else if g.stop < today ∧ 0 < g.dates.length then some (g.start, g.stop)
  else none

/-- The weekly-analysis dates collected by `_find_months_needing_analysis`
(USB branch): parse `DD_MM_YYYY` stems of `weekly/*.triaged.txt` under the
primary root. -/
def collectWeeklyDatesUsb (fs : FS) (cfg : Config) : List Nat :=
  match getPrimaryInputDirectory fs cfg with
  | none => []
  | some base =>
    let weeklyDir := base ++ ["weekly"]
    if existsDir fs weeklyDir then
      ((listDir fs weeklyDir).filter (fun n => nameEndsWith n ".triaged.txt")).filterMap
        (fun n =>
          match parseDMY ⟨takeBeforeInfix ['.'] (stemOf n).data⟩ with
          | some (y, m, d) => some (daysFromCivil y m d * usPerDay)
          | none => none)
    else []

/-- `files._find_months_needing_analysis` (USB branch). -/
def findMonthsUsb (fs : FS) (cfg : Config) (today : Nat) : List (Nat × Nat) :=
  (groupPeriods getMonthBoundaries (collectWeeklyDatesUsb fs cfg)).filterMap
    (emitMonth (monthlyAnalysisExistsUsb fs cfg) today)

/-- `files._collect_monthly_analyses_usb_for_month`: weekly analyses of the
month under the primary root, output `monthly/MM_YYYY.month.txt`. -/
def collectMonthlyUsb (fs : FS) (cfg : Config) (monthStart monthEnd : Nat) :
    Except String (List (Nat × String) × List String) :=
  match getPrimaryInputDirectory fs cfg with
  | none => .error "No primary input directory configured"
  | some base =>
    if !existsDir fs base then .error "Input directory not found"
    else
      let weeklyDir := base ++ ["weekly"]
      if !existsDir fs weeklyDir then .error "weekly directory not found"
      else
        let collected :=
          (sortAscStr ((listDir fs weeklyDir).filter (fun n => nameEndsWith n ".triaged.txt"))).foldl
            (fun (acc : List (Nat × String)) n =>
              match parseDMY ⟨takeBeforeInfix ['.'] (stemOf n).data⟩ with
              | none => acc
              | some (y, m, d) =>
                let t := daysFromCivil y m d * usPerDay
                if monthStart ≤ t ∧ t ≤ monthEnd then
                  match readText fs (weeklyDir ++ [n]) with
                  | some c => acc ++ [(t, c)]
                  | none => acc
                else acc) []
        if collected.isEmpty then .error "No weekly analysis files found for the month"
        else
          let c := civilFromDays (dayOf monthStart)
          let monthLabel := fmtMYymd c.1 c.2.1
          .ok (collected, base ++ ["monthly", monthLabel ++ ".month.txt"])

/-- `files._annual_analysis_exists` (USB branch):
`annual/YYYY.triaged.txt` under the primary root. -/
def annualAnalysisExistsUsb (fs : FS) (cfg : Config) (year : Nat) : Bool :=
  match getPrimaryInputDirectory fs cfg with
  | none => false
  | some base =>
    let annualDir := base ++ ["annual"]
    if !existsDir fs annualDir then false
    else fsExists fs (annualDir ++ [toString year ++ ".triaged.txt"])

def bumpYearCount : List (Nat × Nat) → Nat → List (Nat × Nat)
  | [], y => [(y, 1)]
  | (y', c) :: rest, y =>
    if y' = y then (y', c + 1) :: rest else (y', c) :: bumpYearCount rest y

/-- The monthly-analysis year counts collected by
`_find_years_needing_analysis` (USB branch): parse `MM_YYYY` stems of
`monthly/*.triaged.txt` under the primary root. -/
def collectMonthlyYearCountsUsb (fs : FS) (cfg : Config) : List (Nat × Nat) :=
  match getPrimaryInputDirectory fs cfg with
  | none => []
  | some base =>
    let monthlyDir := base ++ ["monthly"]
    if existsDir fs monthlyDir then
      (((listDir fs monthlyDir).filter (fun n => nameEndsWith n ".triaged.txt")).filterMap
        (fun n =>
          match parseMY ⟨takeBeforeInfix ['.'] (stemOf n).data⟩ with
          | some (y, _) => some y
          | none => none)).foldl bumpYearCount []
    else []

/-- `datetime(year, 12, 31, 23, 59, 59)` as an instant. -/
def yearEndUs (y : Nat) : Nat := daysFromCivil y 12 31 * usPerDay + 86399000000

/-- `files._find_years_needing_analysis` (USB branch): 12 or more monthly
analyses, or the year has ended with at least one; result sorted
ascending. -/
def findYearsUsb (fs : FS) (cfg : Config) (today : Nat) : List Nat :=
  sortAscNat ((collectMonthlyYearCountsUsb fs cfg).filterMap (fun yc =>
    if annualAnalysisExistsUsb fs cfg yc.1 then none
    else if 12 ≤ yc.2 then some yc.1
    else if yearEndUs yc.1 < today ∧ 0 < yc.2 then some yc.1
    else none))

/-- `files._collect_annual_analyses_usb_for_year`: monthly analyses of the
year under the primary root, output `annual/YYYY.annual.txt`. -/
def collectAnnualUsb (fs : FS) (cfg : Config) (year : Nat) :
    Except String (List (Nat × String) × List String) :=
  match getPrimaryInputDirectory fs cfg with
  | none => .error "No primary input directory configured"
  | some base =>
    if !existsDir fs base then .error "Input directory not found"
    else
      let monthlyDir := base ++ ["monthly"]
      if !existsDir fs monthlyDir then .error "monthly directory not found"
      else
        let collected :=
          (sortAscStr ((listDir fs monthlyDir).filter (fun n => nameEndsWith n ".triaged.txt"))).foldl
            (fun (acc : List (Nat × String)) n =>
              match parseMY ⟨takeBeforeInfix ['.'] (stemOf n).data⟩ with
              | none => acc
              | some (y, m) =>
                if y = year then
                  match readText fs (monthlyDir ++ [n]) with
                  | some c => acc ++ [(m, c)]
                  | none => acc
                else acc) []
        if collected.isEmpty then .error "No monthly analysis files found for year"
        else .ok (collected, base ++ ["annual", toString year ++ ".annual.txt"])

/-! ## Analysis pipeline orchestrator (`cli.main`, USB source)

The model collaborator `analyze_tasks` is an injected total function
`gen : String → String` (the claims under verification assume every
generation call succeeds).  Wall-clock `today` and the mtime stamped on
writes are separate parameters, matching the code, which never compares
the two clocks.  A `.error` from the daily batch loader aborts the run
(`cli.main` catches the exception and exits), so the later phases do not
run in that case. -/

structure PipelineStats where
  dailyCalls : Nat
  weeklyCalls : Nat
  monthlyCalls : Nat
  annualCalls : Nat
  aborted : Bool
deriving DecidableEq, Repr

def joinContents (l : List (Nat × String)) : String :=
  l.foldl (fun acc p => acc ++ p.2) ""

/-- One full four-phase run of `cli.main` over the USB backend: Phase Daily
(batch load, generate, save per item; the source's bounded worker pool is
modelled by folding over the items, whose outputs are keyed by their own
timestamps), then the weekly, monthly and annual promotion phases (find
periods, collect, generate, save; a failed collect is caught per
period). -/
def runPipelineUsb (fs0 : FS) (cfg : Config) (gen : String → String)
    (nowM today : Nat) (pref : String) : FS × PipelineStats :=
  match loadAllUsb fs0 cfg "daily" pref with
  | .error _ => (fs0, ⟨0, 0, 0, 0, true⟩)
  | .ok items =>
    let fs1 := items.foldl (fun fs it =>
      (saveAnalysisUsb fs (gen it.content) it.path "daily" nowM).1) fs0
    let weeks := findWeeksUsb fs1 cfg today
    let stW := weeks.foldl (fun (st : FS × Nat) wk =>
      match collectWeeklyUsb st.1 cfg wk.1 wk.2 with
      | .error _ => st
      | .ok pr =>
        ((saveAnalysisUsb st.1 (gen (joinContents pr.1)) pr.2 "weekly" nowM).1, st.2 + 1))
      (fs1, 0)
    let months := findMonthsUsb stW.1 cfg today
    let stM := months.foldl (fun (st : FS × Nat) mo =>
      match collectMonthlyUsb st.1 cfg mo.1 mo.2 with
      | .error _ => st
      | .ok pr =>
        ((saveAnalysisUsb st.1 (gen (joinContents pr.1)) pr.2 "monthly" nowM).1, st.2 + 1))
      (stW.1, 0)
    let years := findYearsUsb stM.1 cfg today
    let stA := years.foldl (fun (st : FS × Nat) yr =>
      match collectAnnualUsb st.1 cfg yr with
      | .error _ => st
      | .ok pr =>
        ((saveAnalysisUsb st.1 (gen (joinContents pr.1)) pr.2 "annual" nowM).1, st.2 + 1))
      (stM.1, 0)
    (stA.1, ⟨items.length, stW.2, stM.2, stA.2, false⟩)

/-! ## CLI exit code (`cli.main`) -/

/-- The outcome of one `cli.main` run, abstracted to what determines the
process exit code: the daily batch listing (`.error` models a raised
exception), the per-item success flags of Phase Daily (item failures are
caught and counted, never raised), and the three promotion-phase listing
steps (whose per-period failures are likewise caught, so only a raised
listing error matters). -/
structure RunEnv where
  dailyItems : Except String (List Bool)
  weeksListing : Except String (List Bool)
  monthsListing : Except String (List Bool)
  yearsListing : Except String (List Bool)

/-- The process exit code of `cli.main`: 1 when any phase's listing raised
(the enclosing `try` prints the error and exits 1), else 1 exactly when
Phase Daily counted at least one failed item, else 0. -/
def mainExitCode (env : RunEnv) : Nat :=
  match env.dailyItems with
  | .error _ => 1
  | .ok daily =>
    match env.weeksListing with
    | .error _ => 1
    | .ok _ =>
      match env.monthsListing with
      | .error _ => 1
      | .ok _ =>
        match env.yearsListing with
        | .error _ => 1
        | .ok _ => if 0 < (daily.filter (fun b => !b)).length then 1 else 0

/-! ## Sync/Convert (`files.convert_visual_files_in_directory`)

The extraction collaborator is injected as
`extract : String → Except String String` (filename to extracted text or
raised error).  The result carries the statistics dictionary, and also the
list of filenames on which extraction was invoked, in order. -/

structure ConvStats where
  converted : Nat
  skipped : Nat
  errors : List String
deriving DecidableEq, Repr

/-- One loop iteration of `convert_visual_files_in_directory`: state is
(file system, stats, processed timestamps, extraction-call list). -/
def convertStep (dir : List String) (extract : String → Except String String) (now : Nat)
    (st : FS × ConvStats × List String × List String) (name : String) :
    FS × ConvStats × List String × List String :=
  let fs := st.1
  let stats := st.2.1
  let processed := st.2.2.1
  let calls := st.2.2.2
  match extractTimestamp name with
  | none => st
  | some ts =>
    if processed.any (fun x => decide (x = ts)) then
      (fs, ⟨stats.converted, stats.skipped + 1, stats.errors⟩, processed, calls)
    else
      let rawNotesPath := dir ++ [ts ++ ".raw_notes.txt"]
      if fsExists fs rawNotesPath then
        (fs, ⟨stats.converted, stats.skipped + 1, stats.errors⟩, processed ++ [ts], calls)
      else
        match extract name with
        | .ok text =>
          (fsWrite fs rawNotesPath text now,
            ⟨stats.converted + 1, stats.skipped, stats.errors⟩, processed ++ [ts], calls ++ [name])
        | .error e =>
          (fs, ⟨stats.converted, stats.skipped, stats.errors ++ [e]⟩, processed, calls ++ [name])

/-- `files.convert_visual_files_in_directory`: all visual files of the
directory in ascending name order; per timestamp, the first file without an
existing sidecar is extracted and its text written as the shared sidecar;
later files of the same timestamp are counted as skipped. -/
def convertVisualFiles (fs : FS) (dir : List String)
    (extract : String → Except String String) (now : Nat) :
    FS × ConvStats × List String × List String :=
  if !existsDir fs dir then (fs, ⟨0, 0, []⟩, [], [])
  else
    let visuals := sortAscStr ((listDir fs dir).filter isVisualName)
    visuals.foldl (convertStep dir extract now) (fs, ⟨0, 0, []⟩, [], [])

/-! ## Google Drive monthly collection filter (`files.py`, `gdrive.py`) -/

/-- The per-file decision of `_collect_monthly_analyses_gdrive_for_month`:
keep files carrying `.triaged.txt` whose `parse_filename_datetime` result
falls inside the month window. -/
def gdriveMonthlyFileAccepted (monthStart monthEnd : Nat) (filename : String) : Bool :=
  if !containsSub filename ".triaged.txt" then false
  else
    match parseFilenameDatetime filename with
    | none => false
    | some dt => decide (monthStart ≤ toUsDT dt) && decide (toUsDT dt ≤ monthEnd)

/-! ## Helper lemmas: folds and period grouping -/

theorem foldl_preserves {α σ : Type} (P : σ → Prop) (f : σ → α → σ) (l : List α) (s : σ)
    (h0 : P s) (hstep : ∀ s a, P s → P (f s a)) : P (l.foldl f s) := by
  induction l generalizing s with
  | nil => exact h0
  | cons a l ih => exact ih (f s a) (hstep s a h0)

theorem lookupKey_addToGroup (m : List (Nat × PeriodGroup)) (k s e t k' : Nat) :
    lookupKey k' (addToGroup m k s e t) =
      if k' = k then
        match lookupKey k' m with
        | some g => some ⟨g.start, g.stop, g.dates ++ [t]⟩
        | none => some ⟨s, e, [t]⟩
      else lookupKey k' m := by
  induction m with
  | nil =>
    by_cases h : k' = k
    · subst h; simp [addToGroup, lookupKey]
    · have h2 : ¬k = k' := fun hh => h hh.symm
      simp [addToGroup, lookupKey, h, h2]
  | cons hd rest ih =>
    obtain ⟨k0, g0⟩ := hd
    by_cases h0 : k0 = k
    · subst h0
      by_cases h : k0 = k'
      · subst h; simp [addToGroup, lookupKey]
      · have h2 : ¬k' = k0 := fun hh => h hh.symm
        simp [addToGroup, lookupKey, h, h2]
    · by_cases h : k0 = k'
      · subst h
        simp [addToGroup, lookupKey, h0]
      · simp [addToGroup, lookupKey, h0, h, ih]

/-- The value a key ends up with after folding `ds` into a map whose prior
value at that key is `prev`. -/
def groupVal (bounds : Nat → Nat × Nat) (ds : List Nat) (k : Nat) (prev : Option PeriodGroup) :
    Option PeriodGroup :=
  let f := ds.filter (fun t => decide (dayOf (bounds t).1 = k))
  match prev with
  | some g => some ⟨g.start, g.stop, g.dates ++ f⟩
  | none =>
    match f with
    | [] => none
    | t0 :: _ => some ⟨(bounds t0).1, (bounds t0).2, f⟩

theorem lookupKey_foldl_insert (bounds : Nat → Nat × Nat) (ds : List Nat)
    (m : List (Nat × PeriodGroup)) (k : Nat) :
    lookupKey k (ds.foldl (insertPeriod bounds) m) = groupVal bounds ds k (lookupKey k m) := by
  induction ds generalizing m with
  | nil =>
    cases hm : lookupKey k m with
    | none => simp [groupVal, hm]
    | some g => simp [groupVal, hm]
  | cons t ds ih =>
    have step : List.foldl (insertPeriod bounds) m (t :: ds) =
        List.foldl (insertPeriod bounds) (insertPeriod bounds m t) ds := rfl
    rw [step, ih]
    rw [show insertPeriod bounds m t =
      addToGroup m (dayOf (bounds t).1) (bounds t).1 (bounds t).2 t from rfl]
    by_cases hk : dayOf (bounds t).1 = k
    · cases hm : lookupKey k m with
      | none =>
        rw [lookupKey_addToGroup, if_pos hk.symm, hm]
        simp [groupVal, hk, hm, List.filter_cons]
      | some g =>
        rw [lookupKey_addToGroup, if_pos hk.symm, hm]
        simp [groupVal, hk, hm, List.filter_cons]
    · rw [lookupKey_addToGroup, if_neg (fun hh => hk hh.symm)]
      cases hm : lookupKey k m with
      | none => simp [groupVal, hm, List.filter_cons, hk]
      | some g => simp [groupVal, hm, List.filter_cons, hk]

def keysOf (m : List (Nat × PeriodGroup)) : List Nat := m.map Prod.fst

theorem lookupKey_eq_none_iff (m : List (Nat × PeriodGroup)) (k : Nat) :
    lookupKey k m = none ↔ k ∉ keysOf m := by
  induction m with
  | nil => simp [lookupKey, keysOf]
  | cons hd rest ih =>
    obtain ⟨k0, g0⟩ := hd
    by_cases h : k0 = k
    · subst h; simp [lookupKey, keysOf]
    · have h2 : ¬k = k0 := fun hh => h hh.symm
      simp [lookupKey, keysOf, h, h2]
      simpa [keysOf] using ih

theorem keysOf_addToGroup_of_mem (m : List (Nat × PeriodGroup)) (k s e t : Nat)
    (h : k ∈ keysOf m) : keysOf (addToGroup m k s e t) = keysOf m := by
  induction m with
  | nil => simp [keysOf] at h
  | cons hd rest ih =>
    obtain ⟨k0, g0⟩ := hd
    by_cases h0 : k0 = k
    · subst h0; simp [addToGroup, keysOf]
    · have hmem : k ∈ keysOf rest := by
        simp [keysOf] at h
        rcases h with h | h
        · exact absurd h.symm h0
        · simpa [keysOf] using h
      have := ih hmem
      simp only [addToGroup, if_neg h0, keysOf, List.map_cons]
      rw [show List.map Prod.fst (addToGroup rest k s e t) = keysOf (addToGroup rest k s e t) from rfl]
      rw [this]
      rfl

theorem keysOf_addToGroup_of_not_mem (m : List (Nat × PeriodGroup)) (k s e t : Nat)
    (h : k ∉ keysOf m) : keysOf (addToGroup m k s e t) = keysOf m ++ [k] := by
  induction m with
  | nil => simp [addToGroup, keysOf]
  | cons hd rest ih =>
    obtain ⟨k0, g0⟩ := hd
    have hk0 : k0 ≠ k := by
      intro hh; exact h (by simp [keysOf, hh])
    have hmem : k ∉ keysOf rest := by
      intro hh; exact h (by simp [keysOf]; exact Or.inr (by simpa [keysOf] using hh))
    have := ih hmem
    simp only [addToGroup, if_neg hk0, keysOf, List.map_cons]
    rw [show List.map Prod.fst (addToGroup rest k s e t) = keysOf (addToGroup rest k s e t) from rfl]
    rw [this]
    rfl

theorem keysOf_insertPeriod_nodup (bounds : Nat → Nat × Nat) (m : List (Nat × PeriodGroup))
    (t : Nat) (h : (keysOf m).Nodup) : (keysOf (insertPeriod bounds m t)).Nodup := by
  rw [show insertPeriod bounds m t =
    addToGroup m (dayOf (bounds t).1) (bounds t).1 (bounds t).2 t from rfl]
  by_cases hm : dayOf (bounds t).1 ∈ keysOf m
  · rw [keysOf_addToGroup_of_mem _ _ _ _ _ hm]; exact h
  · rw [keysOf_addToGroup_of_not_mem _ _ _ _ _ hm]
    simpa [List.nodup_append] using ⟨h, fun hh => hm hh⟩

theorem keysOf_groupPeriods_nodup (bounds : Nat → Nat × Nat) (ds : List Nat) :
    (keysOf (groupPeriods bounds ds)).Nodup := by
  exact foldl_preserves (fun m => (keysOf m).Nodup) (insertPeriod bounds) ds []
    (by simp [keysOf]) (fun m t h => keysOf_insertPeriod_nodup bounds m t h)

theorem lookupKey_of_mem (m : List (Nat × PeriodGroup)) (k : Nat) (g : PeriodGroup)
    (hnd : (keysOf m).Nodup) (h : (k, g) ∈ m) : lookupKey k m = some g := by
  induction m with
  | nil => simp at h
  | cons hd rest ih =>
    obtain ⟨k0, g0⟩ := hd
    have hnd' := List.nodup_cons.mp (show (k0 :: keysOf rest).Nodup from hnd)
    rcases List.mem_cons.mp h with h | h
    · simp only [Prod.mk.injEq] at h
      obtain ⟨hk, hg⟩ := h
      subst hk; subst hg
      simp [lookupKey]
    · have hk0 : k0 ≠ k := by
        intro hh; subst hh
        exact hnd'.1 (by simpa [keysOf] using List.mem_map_of_mem Prod.fst h)
      simp [lookupKey, hk0, ih hnd'.2 h]

theorem mem_of_lookupKey (m : List (Nat × PeriodGroup)) (k : Nat) (g : PeriodGroup)
    (h : lookupKey k m = some g) : (k, g) ∈ m := by
  induction m with
  | nil => simp [lookupKey] at h
  | cons hd rest ih =>
    obtain ⟨k0, g0⟩ := hd
    by_cases hk : k0 = k
    · subst hk
      simp [lookupKey] at h
      subst h
      exact List.mem_cons_self _ _
    · simp [lookupKey, hk] at h
      exact List.mem_cons_of_mem _ (ih h)

/-! ## Helper lemmas: week boundaries -/

theorem weekStart_eq (t : Nat) :
    (getWeekBoundaries t).1 = (dayOf t - weekdayOfDay (dayOf t)) * usPerDay := rfl

theorem weekBounds_stop (t : Nat) :
    (getWeekBoundaries t).2 = (getWeekBoundaries t).1 + 4 * usPerDay + (usPerDay - 1) := by
  simp [getWeekBoundaries, Nat.add_mul]

theorem dayOf_mul_usPerDay (m : Nat) : dayOf (m * usPerDay) = m := by
  unfold dayOf
  exact Nat.mul_div_cancel _ (by decide)

theorem weekStart_day_mul (u : Nat) :
    (getWeekBoundaries u).1 = dayOf (getWeekBoundaries u).1 * usPerDay := by
  rw [weekStart_eq, dayOf_mul_usPerDay]

theorem weekBounds_of_day_eq (t u : Nat)
    (h : dayOf (getWeekBoundaries t).1 = dayOf (getWeekBoundaries u).1) :
    getWeekBoundaries t = getWeekBoundaries u := by
  have h1 : (getWeekBoundaries t).1 = (getWeekBoundaries u).1 := by
    rw [weekStart_day_mul t, weekStart_day_mul u, h]
  apply Prod.ext
  · exact h1
  · rw [weekBounds_stop t, weekBounds_stop u, h1]

theorem weekdayOf_weekStart (t : Nat) : weekdayOf (getWeekBoundaries t).1 = 0 := by
  rw [weekStart_eq, weekdayOf, dayOf_mul_usPerDay]
  unfold weekdayOfDay
  omega

theorem weekStart_mod (t : Nat) : (getWeekBoundaries t).1 % usPerDay = 0 := by
  rw [weekStart_eq]
  exact Nat.mul_mod_left _ _

/-! ## Claim C1 -/

/-- The daily records grouped into the work week starting at the instant
`ws` (the records whose computed week boundaries start there). -/
def weekMembers (dates : List Nat) (ws : Nat) : List Nat :=
  dates.filter (fun u => decide ((getWeekBoundaries u).1 = ws))

/-- The weekday-dated (Monday through Friday) records among
`weekMembers`. -/
def weekdayMembersOf (dates : List Nat) (ws : Nat) : List Nat :=
  (weekMembers dates ws).filter (fun u => decide (weekdayOf u < 5))

theorem weekMembers_eq_group_filter (dates : List Nat) (p1 : Nat) (k : Nat)
    (hk : k = dayOf p1) (hp1 : p1 = dayOf p1 * usPerDay) :
    weekMembers dates p1 =
      dates.filter (fun t => decide (dayOf (getWeekBoundaries t).1 = k)) := by
  apply List.filter_congr
  intro u _
  subst hk
  simp only [decide_eq_decide]
  constructor
  · intro h; rw [h]
  · intro h
    rw [weekStart_day_mul u, h, ← hp1]

/-- Claim C1: the weekly promotion scheduler returns a Monday-to-Friday
work-week period exactly when some daily analysis record falls in that
week, no weekly analysis exists for the week start, and either at least 5
records in the week are dated Monday through Friday, or the current time
is past the week's Friday end (23:59:59.999999) and the week holds at
least one record; a week with zero records is never returned.  Stated over
`findWeeksCore`, the grouping-and-decision core of
`_find_weeks_needing_analysis`, for any collected record dates, any
weekly-existence check and any current time. -/
theorem c1_weekly_scheduler_iff (dates : List Nat) (existsW : Nat → Bool) (today : Nat)
    (p : Nat × Nat) :
    p ∈ findWeeksCore dates existsW today ↔
      ((∃ t ∈ dates, getWeekBoundaries t = p) ∧
        existsW p.1 = false ∧
        p.1 % usPerDay = 0 ∧ weekdayOf p.1 = 0 ∧
        p.2 = p.1 + 4 * usPerDay + (usPerDay - 1) ∧
        (5 ≤ (weekdayMembersOf dates p.1).length ∨
          (p.2 < today ∧ 0 < (weekMembers dates p.1).length))) := by
  constructor
  · intro hp
    obtain ⟨kg, hkgmem, hemit⟩ := List.mem_filterMap.mp hp
    obtain ⟨k, g⟩ := kg
    have hlk : lookupKey k (groupPeriods getWeekBoundaries dates) = some g :=
      lookupKey_of_mem _ _ _ (keysOf_groupPeriods_nodup _ _) hkgmem
    rw [show groupPeriods getWeekBoundaries dates =
        dates.foldl (insertPeriod getWeekBoundaries) [] from rfl,
      lookupKey_foldl_insert,
      show lookupKey k ([] : List (Nat × PeriodGroup)) = none from rfl] at hlk
    simp only [groupVal] at hlk
    cases hfc : dates.filter (fun t => decide (dayOf (getWeekBoundaries t).1 = k)) with
    | nil => rw [hfc] at hlk; exact absurd hlk (by simp)
    | cons t0 rest =>
      rw [hfc] at hlk
      have hg : g = ⟨(getWeekBoundaries t0).1, (getWeekBoundaries t0).2,
          dates.filter (fun t => decide (dayOf (getWeekBoundaries t).1 = k))⟩ := by
        rw [hfc]
        exact (Option.some.injEq .. ▸ hlk).symm
      have ht0f : t0 ∈ dates.filter (fun t => decide (dayOf (getWeekBoundaries t).1 = k)) := by
        rw [hfc]; exact List.mem_cons_self _ _
      have ht0mem : t0 ∈ dates := List.mem_of_mem_filter ht0f
      have ht0k : dayOf (getWeekBoundaries t0).1 = k := by
        have := List.of_mem_filter ht0f
        simpa using this
      unfold emitWeek at hemit
      simp only at hemit
      by_cases h1 : existsW g.start = true
      · rw [if_pos h1] at hemit; exact absurd hemit (by simp)
      · rw [if_neg h1] at hemit
        have hexf : existsW g.start = false := Bool.not_eq_true _ ▸ h1
        have hp1 : p.1 = (getWeekBoundaries t0).1 := by
          by_cases h2 : 5 ≤ (g.dates.filter (fun d => decide (weekdayOf d < 5))).length
          · rw [if_pos h2] at hemit
            have := Option.some.injEq .. ▸ hemit
            rw [← this, hg]
          · rw [if_neg h2] at hemit
            by_cases h3 : g.stop < today ∧ 0 < g.dates.length
            · rw [if_pos h3] at hemit
              have := Option.some.injEq .. ▸ hemit
              rw [← this, hg]
            · rw [if_neg h3] at hemit; exact absurd hemit (by simp)
        have hpair : p = (g.start, g.stop) := by
          by_cases h2 : 5 ≤ (g.dates.filter (fun d => decide (weekdayOf d < 5))).length
          · rw [if_pos h2] at hemit
            exact (Option.some.injEq .. ▸ hemit).symm
          · rw [if_neg h2] at hemit
            by_cases h3 : g.stop < today ∧ 0 < g.dates.length
            · rw [if_pos h3] at hemit
              exact (Option.some.injEq .. ▸ hemit).symm
            · rw [if_neg h3] at hemit; exact absurd hemit (by simp)
        have hpb : getWeekBoundaries t0 = p := by
          apply Prod.ext
          · rw [hpair, hg]
          · rw [hpair, hg]
        have hwm : weekMembers dates p.1 =
            dates.filter (fun t => decide (dayOf (getWeekBoundaries t).1 = k)) := by
          apply weekMembers_eq_group_filter
          · rw [← hpb, ht0k]
          · rw [← hpb, ← weekStart_day_mul]
        refine ⟨⟨t0, ht0mem, hpb⟩, ?_, ?_, ?_, ?_, ?_⟩
        · rw [hpair]; exact hexf
        · rw [← hpb]; exact weekStart_mod t0
        · rw [← hpb]; exact weekdayOf_weekStart t0
        · rw [hpair, hg]
          exact weekBounds_stop t0
        · have hdates : g.dates = weekMembers dates p.1 := by rw [hg, hwm]
          by_cases h2 : 5 ≤ (g.dates.filter (fun d => decide (weekdayOf d < 5))).length
          · left
            unfold weekdayMembersOf
            rw [← hdates]
            exact h2
          · rw [if_neg h2] at hemit
            by_cases h3 : g.stop < today ∧ 0 < g.dates.length
            · right
              refine ⟨?_, ?_⟩
              · rw [hpair]; exact h3.1
              · rw [← hdates]; exact h3.2
            · rw [if_neg h3] at hemit; exact absurd hemit (by simp)
  · rintro ⟨⟨t, htmem, htb⟩, hex, _hmod, _hwd, _hstop, hcond⟩
    set k := dayOf p.1 with hkdef
    have htk : dayOf (getWeekBoundaries t).1 = k := by rw [htb]
    have htf : t ∈ dates.filter (fun u => decide (dayOf (getWeekBoundaries u).1 = k)) :=
      List.mem_filter.mpr ⟨htmem, by simpa using htk⟩
    cases hfc : dates.filter (fun u => decide (dayOf (getWeekBoundaries u).1 = k)) with
    | nil => rw [hfc] at htf; exact absurd htf (by simp)
    | cons t0 rest =>
      have hlk : lookupKey k (groupPeriods getWeekBoundaries dates) =
          some ⟨(getWeekBoundaries t0).1, (getWeekBoundaries t0).2,
            dates.filter (fun u => decide (dayOf (getWeekBoundaries u).1 = k))⟩ := by
        rw [show groupPeriods getWeekBoundaries dates =
            dates.foldl (insertPeriod getWeekBoundaries) [] from rfl,
          lookupKey_foldl_insert,
          show lookupKey k ([] : List (Nat × PeriodGroup)) = none from rfl]
        simp only [groupVal]
        rw [hfc]
      have ht0f : t0 ∈ dates.filter (fun u => decide (dayOf (getWeekBoundaries u).1 = k)) := by
        rw [hfc]; exact List.mem_cons_self _ _
      have ht0k : dayOf (getWeekBoundaries t0).1 = k := by
        have := List.of_mem_filter ht0f
        simpa using this
      have ht0b : getWeekBoundaries t0 = p := by
        rw [← htb]
        exact weekBounds_of_day_eq t0 t (by rw [ht0k, htk])
      have hwm : weekMembers dates p.1 =
          dates.filter (fun u => decide (dayOf (getWeekBoundaries u).1 = k)) := by
        apply weekMembers_eq_group_filter
        · rw [← ht0b, ht0k]
        · rw [← ht0b, ← weekStart_day_mul]
      apply List.mem_filterMap.mpr
      refine ⟨(k, ⟨(getWeekBoundaries t0).1, (getWeekBoundaries t0).2,
        dates.filter (fun u => decide (dayOf (getWeekBoundaries u).1 = k))⟩),
        mem_of_lookupKey _ _ _ hlk, ?_⟩
      unfold emitWeek
      simp only
      rw [if_neg (by
        rw [show (getWeekBoundaries t0).1 = p.1 from by rw [ht0b]]
        simp [hex])]
      by_cases h2 : 5 ≤ ((dates.filter
          (fun u => decide (dayOf (getWeekBoundaries u).1 = k))).filter
          (fun d => decide (weekdayOf d < 5))).length
      · rw [if_pos h2]
        rw [show (getWeekBoundaries t0).1 = p.1 from by rw [ht0b],
          show (getWeekBoundaries t0).2 = p.2 from by rw [ht0b]]
      · rw [if_neg h2]
        have hclosure : p.2 < today ∧ 0 < (weekMembers dates p.1).length := by
          rcases hcond with hc | hc
          · exfalso
            apply h2
            unfold weekdayMembersOf at hc
            rw [hwm] at hc
            exact hc
          · exact hc
        rw [if_pos (by
          constructor
          · rw [show (getWeekBoundaries t0).2 = p.2 from by rw [ht0b]]
            exact hclosure.1
          · rw [← hwm]
            exact hclosure.2)]
        rw [show (getWeekBoundaries t0).1 = p.1 from by rw [ht0b],
          show (getWeekBoundaries t0).2 = p.2 from by rw [ht0b]]

/-- A Saturday-dated record (2025-01-11) groups into the week of Monday
2025-01-06; once that Friday has passed, the closure condition promotes the
week on the strength of the Saturday record alone. -/
example : findWeeksCore [20102 * usPerDay] (fun _ => false) (20104 * usPerDay) =
    [(20097 * usPerDay, 20101 * usPerDay + (usPerDay - 1))] := by decide

/-! ## Concrete scenario states -/

/-- Only a USB root `A` configured. -/
def cfgUsbOnly : Config := ⟨some ["A"], none⟩

/-- USB root `A` and local root `B`, in that priority order. -/
def cfgTwoRoots : Config := ⟨some ["A"], some ["B"]⟩

/-- One text note under root `A` (mtime `nm`) whose daily analysis exists
(mtime `am`). -/
def textState (nm am : Nat) : FS :=
  ⟨[⟨["A", "20250101_120000.txt"], nm, "notes"⟩,
    ⟨["A", "daily", "01_01_2025.triaged.txt"], am, "old"⟩], [["A"]]⟩

/-- One PNG note (mtime `nm`) with its converted sidecar (mtime `sm`) and an
existing daily analysis (mtime `am`) under root `A`. -/
def pngState (nm am sm : Nat) : FS :=
  ⟨[⟨["A", "20250101_120000.png"], nm, "bytes"⟩,
    ⟨["A", "20250101_120000.raw_notes.txt"], sm, "raw"⟩,
    ⟨["A", "daily", "01_01_2025.triaged.txt"], am, "old"⟩], [["A"]]⟩

/-- One PNG note (mtime `nm`) with an existing daily analysis (mtime `am`)
but no converted sidecar. -/
def pngNoSide (nm am : Nat) : FS :=
  ⟨[⟨["A", "20250101_120000.png"], nm, "bytes"⟩,
    ⟨["A", "daily", "01_01_2025.triaged.txt"], am, "old"⟩], [["A"]]⟩

/-- The same logical note (timestamp `20250101_090000`) present as a source
file in both configured roots, nothing analyzed yet. -/
def fsTwoRootsDup : FS :=
  ⟨[⟨["A", "20250101_090000.txt"], 0, "tasks A"⟩,
    ⟨["B", "20250101_090000.txt"], 0, "tasks B"⟩], [["A"], ["B"]]⟩

/-- The same logical note in both roots, already analyzed (fresh) under
root `A` only. -/
def fsDupAnalyzedInA : FS :=
  ⟨[⟨["A", "20250101_090000.txt"], 0, "tasks A"⟩,
    ⟨["A", "daily", "01_01_2025.triaged.txt"], 50, "old"⟩,
    ⟨["B", "20250101_090000.txt"], 0, "tasks B"⟩], [["A"], ["B"]]⟩

/-! ## Claim C5 -/

/-- Claim C5 counterexample: on a reachable root whose only candidate is
already analyzed and fresh, the daily batch loader raises, `cli.main`
catches the exception and exits 1 — a run with zero failed Phase-Daily
items whose exit code is nonzero, contradicting the claimed equivalence. -/
theorem c5_exit_one_with_zero_daily_failures :
    loadAllUsb (textState 0 1) cfgUsbOnly "daily" "txt" =
      .error "No unanalyzed notes files found in any configured input directory" ∧
    mainExitCode ⟨(loadAllUsb (textState 0 1) cfgUsbOnly "daily" "txt").map
      (List.map (fun _ => true)), .ok [], .ok [], .ok []⟩ = 1 := by
  constructor
  · rfl
  · rfl

/-- Claim C5 amended: the run exits 0 exactly when the daily batch listing
and all three promotion listings complete without raising and Phase Daily
counted zero failed items; equivalently, the exit code is nonzero when
Phase Daily had a failed item or any listing raised (in particular when
there was nothing left to analyze, since the batch loader raises then). -/
theorem c5_exit_code_iff (env : RunEnv) :
    mainExitCode env = 0 ↔
      ((∃ daily, env.dailyItems = .ok daily ∧ (daily.filter (fun b => !b)).length = 0) ∧
        (∃ w, env.weeksListing = .ok w) ∧
        (∃ m, env.monthsListing = .ok m) ∧
        (∃ y, env.yearsListing = .ok y)) := by
  obtain ⟨d, w, m, y⟩ := env
  cases d with
  | error e => simp [mainExitCode]
  | ok daily =>
    cases w with
    | error e => simp [mainExitCode]
    | ok w =>
      cases m with
      | error e => simp [mainExitCode]
      | ok m =>
        cases y with
        | error e => simp [mainExitCode]
        | ok y =>
          simp only [mainExitCode, Except.ok.injEq, exists_eq_left]
          constructor
          · intro h
            refine ⟨⟨daily, rfl, ?_⟩, ⟨w, rfl⟩, ⟨m, rfl⟩, ⟨y, rfl⟩⟩
            by_contra hne
            rw [if_pos (Nat.pos_of_ne_zero hne)] at h
            exact absurd h (by decide)
          · rintro ⟨⟨daily2, hd, hlen⟩, _, _, _⟩
            subst hd
            rw [hlen]
            rfl

/-! ## Claim C4 -/

/-- Claim C4 counterexample: root `A` is configured and reachable, its one
candidate is filtered out (analysis exists, not stale), and the batch
entry point raises `FileNotFoundError` (modelled by `.error`) instead of
returning an empty list. -/
theorem c4_batch_raises_counterexample :
    getAllInputDirectories (textState 0 1) cfgUsbOnly = [["A"]] ∧
    loadAllUsb (textState 0 1) cfgUsbOnly "daily" "txt" =
      .error "No unanalyzed notes files found in any configured input directory" := by
  constructor
  · rfl
  · rfl

/-- Claim C4 amended: when every candidate is filtered out, the batch entry
point raises `FileNotFoundError` exactly like the single-item legacy entry
point; it never returns an empty list (a successful return holds at least
one item). -/
theorem c4_batch_never_empty :
    (∀ fs cfg nt pref items, loadAllUsb fs cfg nt pref = .ok items → items ≠ []) ∧
    loadFirstUsb (textState 0 1) cfgUsbOnly "daily" "txt" =
      .error "No unanalyzed notes files found in any configured input directory" := by
  constructor
  · intro fs cfg nt pref items h
    unfold loadAllUsb at h
    by_cases h1 : (getAllInputDirectories fs cfg).isEmpty
    · rw [if_pos h1] at h
      exact absurd h (by simp)
    · rw [if_neg h1] at h
      dsimp only at h
      by_cases h2 : ((scanAllUsb fs cfg nt pref).1).isEmpty
      · rw [if_pos h2] at h
        exact absurd h (by simp)
      · rw [if_neg h2] at h
        have := Except.ok.injEq .. ▸ h
        rw [← this]
        intro hnil
        rw [hnil] at h2
        exact h2 rfl
  · rfl

/-- Witness for the amended C4: on a state with one stale text note, the
batch loader returns a one-item list, which the amended theorem certifies
non-empty. -/
theorem c4_batch_never_empty_witness :
    loadAllUsb (textState 2 1) cfgUsbOnly "daily" "txt" =
      .ok [⟨"notes", ["A", "20250101_120000.txt"], ⟨2025, 1, 1, 12, 0, 0⟩⟩] ∧
    ([⟨"notes", ["A", "20250101_120000.txt"], ⟨2025, 1, 1, 12, 0, 0⟩⟩] : List LoadedItem) ≠ [] := by
  refine ⟨by rfl, c4_batch_never_empty.1 (textState 2 1) cfgUsbOnly "daily" "txt" _ (by rfl)⟩

/-! ## Claim C7 -/

/-- The timestamp extracted from a loaded item's filename. -/
def itemTimestamps (items : List LoadedItem) : List (Option String) :=
  items.map (fun it => extractTimestamp (it.path.getLastD ""))

/-- The extracted timestamps of a batch-loader run (empty on a raised
error). -/
def loadAllTimestamps (fs : FS) (cfg : Config) (nt pref : String) : List (Option String) :=
  match loadAllUsb fs cfg nt pref with
  | .ok items => itemTimestamps items
  | .error _ => []

/-- The loader-state invariant: the items' extracted timestamps are
exactly the seen list, which has no duplicates. -/
def LoaderInv (st : List LoadedItem × List String) : Prop :=
  itemTimestamps st.1 = st.2.map some ∧ st.2.Nodup

theorem getLastD_concat {α : Type} (l : List α) (a d : α) : (l ++ [a]).getLastD d = a := by
  induction l with
  | nil => rfl
  | cons x xs ih =>
    cases xs with
    | nil => rfl
    | cons y ys => simpa using ih

theorem evalBatchCandidateUsb_some (fs : FS) (nt : String) (dir : List String)
    (seen : List String) (name ts : String) (it : LoadedItem)
    (h : evalBatchCandidateUsb fs nt dir seen name = some (ts, it)) :
    extractTimestamp name = some ts ∧
      ¬(seen.any (fun x => decide (x = ts))) = true ∧ it.path = dir ++ [name] := by
  unfold evalBatchCandidateUsb at h
  by_cases h1 : containsSub name ".triaged." = true
  · rw [if_pos h1] at h; exact absurd h (by simp)
  · rw [if_neg h1] at h
    cases h2 : extractTimestamp name with
    | none => simp only [h2] at h; exact absurd h (by simp)
    | some ts' =>
      simp only [h2] at h
      by_cases h3 : (seen.any fun x => decide (x = ts')) = true
      · rw [if_pos h3] at h; exact absurd h (by simp)
      · rw [if_neg h3] at h
        cases h4 : parseYMD8 ⟨ts'.data.take 8⟩ with
        | none => simp only [h4] at h; exact absurd h (by simp)
        | some ymd =>
          obtain ⟨y, m, d⟩ := ymd
          simp only [h4] at h
          split at h
          all_goals split at h
          all_goals try exact Option.noConfusion h
          all_goals split at h
          all_goals try exact Option.noConfusion h
          all_goals split at h
          all_goals split at h
          all_goals try exact Option.noConfusion h
          all_goals simp only [Option.some.injEq, Prod.mk.injEq] at h
          all_goals obtain ⟨hts, hit⟩ := h
          all_goals subst hts
          all_goals subst hit
          all_goals exact ⟨rfl, h3, rfl⟩

theorem loaderInv_append (items : List LoadedItem) (seen : List String)
    (it : LoadedItem) (dir : List String) (name : String) (ts : String)
    (hts : extractTimestamp name = some ts)
    (hseen : ¬(seen.any (fun x => decide (x = ts))) = true)
    (hpath : it.path = dir ++ [name])
    (h : LoaderInv (items, seen)) :
    LoaderInv (items ++ [it], seen ++ [ts]) := by
  obtain ⟨h1, h2⟩ := h
  have hnotmem : ts ∉ seen := by
    intro hmem
    exact hseen (List.any_eq_true.mpr ⟨ts, hmem, by simp⟩)
  constructor
  · unfold itemTimestamps at h1 ⊢
    rw [List.map_append, List.map_append, h1]
    simp [hpath, getLastD_concat, hts]
  · simpa [List.nodup_append] using ⟨h2, hnotmem⟩

theorem processFileUsb_inv (fs : FS) (nt : String) (dir : List String)
    (st : List LoadedItem × List String) (name : String) (h : LoaderInv st) :
    LoaderInv (processFileUsb fs nt dir st name) := by
  cases hx : evalBatchCandidateUsb fs nt dir st.2 name with
  | none => simpa [processFileUsb, hx] using h
  | some pair =>
    obtain ⟨ts, it⟩ := pair
    obtain ⟨hts, hseen, hpath⟩ := evalBatchCandidateUsb_some fs nt dir st.2 name ts it hx
    obtain ⟨items, seen⟩ := st
    simp only [processFileUsb, hx]
    exact loaderInv_append items seen it dir name ts hts hseen hpath h

theorem scanAllUsb_inv (fs : FS) (cfg : Config) (nt pref : String) :
    LoaderInv (scanAllUsb fs cfg nt pref) := by
  unfold scanAllUsb
  apply foldl_preserves LoaderInv
  · exact ⟨rfl, List.nodup_nil⟩
  · intro st base hst
    dsimp only
    split <;> split
    · exact foldl_preserves LoaderInv (processFileUsb fs nt base)
        (candidateNames fs base pref) st hst
        (fun s a hs => processFileUsb_inv fs nt base s a hs)
    · exact hst
    · exact foldl_preserves LoaderInv (processFileUsb fs nt (base ++ [nt]))
        (candidateNames fs (base ++ [nt]) pref) st hst
        (fun s a hs => processFileUsb_inv fs nt (base ++ [nt]) s a hs)
    · exact hst

/-- Claim C7 counterexample: the timestamp `20250101_090000` exists as a
source file in both configured roots; the higher-priority root's copy is
filtered out (its analysis exists and is fresh), its timestamp is never
marked as seen, and the single emitted item comes from the lower-priority
root `B` — contradicting "that item comes from the highest-priority
root". -/
theorem c7_item_from_lower_priority_root :
    loadAllUsb fsDupAnalyzedInA cfgTwoRoots "daily" "txt" =
      .ok [⟨"tasks B", ["B", "20250101_090000.txt"], ⟨2025, 1, 1, 9, 0, 0⟩⟩] := by
  rfl

/-- Claim C7 amended: the batch loader emits at most one item per extracted
timestamp (the emitted timestamps are pairwise distinct, for every state,
configuration, granularity and preference); and the emitted item comes from
the first root in priority order whose copy passes the filters — in
particular from the highest-priority root whenever that root's own copy
qualifies, as in the two-root state where both copies are unanalyzed. -/
theorem c7_at_most_one_item_per_timestamp :
    (∀ fs cfg nt pref, (loadAllTimestamps fs cfg nt pref).Nodup) ∧
    loadAllUsb fsTwoRootsDup cfgTwoRoots "daily" "txt" =
      .ok [⟨"tasks A", ["A", "20250101_090000.txt"], ⟨2025, 1, 1, 9, 0, 0⟩⟩] := by
  constructor
  · intro fs cfg nt pref
    unfold loadAllTimestamps
    cases hres : loadAllUsb fs cfg nt pref with
    | error e => simp
    | ok items =>
      have hinv := scanAllUsb_inv fs cfg nt pref
      unfold loadAllUsb at hres
      by_cases h1 : (getAllInputDirectories fs cfg).isEmpty
      · rw [if_pos h1] at hres
        exact absurd hres (by simp)
      · rw [if_neg h1] at hres
        dsimp only at hres
        by_cases h2 : ((scanAllUsb fs cfg nt pref).1).isEmpty
        · rw [if_pos h2] at hres
          exact absurd hres (by simp)
        · rw [if_neg h2] at hres
          rw [← hres]
          dsimp only
          rw [hinv.1]
          exact hinv.2.map (Option.some_injective String)
  · rfl

/-! ## Claim C2 -/

/-- Two daily analyses for the work week of Monday 2025-01-06 under root
`A`, and no weekly analysis anywhere. -/
def fsWeekPair : FS :=
  ⟨[⟨["A", "daily", "06_01_2025.triaged.txt"], 10, "d1"⟩,
    ⟨["A", "daily", "07_01_2025.triaged.txt"], 10, "d2"⟩], [["A"]]⟩

/-- Monday 2025-01-13, noon: the week of 2025-01-06 has closed. -/
def todayJan13 : Nat := 20104 * usPerDay + 43200000000

/-- Claim C2 (code bug, evaluated at the failing input): for the closed
work week of Monday 2025-01-06 the scheduler returns the week; collecting
it names the output `weekly/20250106.week.txt`; saving the rollup through
`save_analysis` on that path writes
`weekly/weekly/20250106.week.triaged.txt` (the 13-character stem fails
timestamp extraction, so the stem-fallback name lands in a nested `weekly`
directory), while the existence check looks for
`weekly/06_01_2025.triaged.txt`; hence after the save the existence check
still fails and the scheduler returns the very same week again, so the
completed rollup is regenerated, contrary to the claim. -/
theorem c2_weekly_save_exists_mismatch :
    findWeeksUsb fsWeekPair cfgUsbOnly todayJan13 =
      [(20097 * usPerDay, 20101 * usPerDay + (usPerDay - 1))] ∧
    collectWeeklyUsb fsWeekPair cfgUsbOnly (20097 * usPerDay)
        (20101 * usPerDay + (usPerDay - 1)) =
      .ok ([(20097 * usPerDay, "d1"), (20098 * usPerDay, "d2")],
        ["A", "weekly", "20250106.week.txt"]) ∧
    (saveAnalysisUsb fsWeekPair "rollup" ["A", "weekly", "20250106.week.txt"] "weekly" 99).2 =
      ["A", "weekly", "weekly", "20250106.week.triaged.txt"] ∧
    weeklyAnalysisExistsUsb
        (saveAnalysisUsb fsWeekPair "rollup" ["A", "weekly", "20250106.week.txt"] "weekly" 99).1
        cfgUsbOnly (20097 * usPerDay) = false ∧
    findWeeksUsb
        (saveAnalysisUsb fsWeekPair "rollup" ["A", "weekly", "20250106.week.txt"] "weekly" 99).1
        cfgUsbOnly todayJan13 =
      [(20097 * usPerDay, 20101 * usPerDay + (usPerDay - 1))] ∧
    (["A", "weekly", "weekly", "20250106.week.triaged.txt"] : List String) ≠
      ["A", "weekly", fmtDMYday 20097 ++ ".triaged.txt"] := by
  exact ⟨rfl, rfl, rfl, rfl, rfl, by decide⟩

/-! ## Claim C3 -/

def genConst : String → String := fun _ => "generated plan"

/-- Wednesday 2025-01-01, 12:00 (first run) and 13:00 (second run). -/
def today1Jan : Nat := 20092 * usPerDay + 43200000000

def today2Jan : Nat := 20092 * usPerDay + 46800000000

def c3Run1 : FS × PipelineStats :=
  runPipelineUsb fsTwoRootsDup cfgTwoRoots genConst 100 today1Jan "txt"

def c3Run2 : FS × PipelineStats :=
  runPipelineUsb c3Run1.1 cfgTwoRoots genConst 200 today2Jan "txt"

/-- Claim C3 (code bug, evaluated at the failing input): with the same
timestamp present as a source file in both roots and nothing analyzed, the
first full run performs one daily generation call (root `A` wins the
dedup) and writes the analysis under `A` only; the second run, with no
source modified, is not aborted and performs another daily generation call
— root `A`'s copy is filtered by the existence check, which never marks
the timestamp as seen, so root `B`'s copy is re-included — and creates the
brand-new output file `B/daily/01_01_2025.triaged.txt`, contrary to the
claimed zero new outputs and zero generation calls. -/
theorem c3_second_run_not_idempotent :
    c3Run1.2 = ⟨1, 0, 0, 0, false⟩ ∧
    c3Run2.2 = ⟨1, 0, 0, 0, false⟩ ∧
    fsExists c3Run1.1 ["B", "daily", "01_01_2025.triaged.txt"] = false ∧
    fsExists c3Run2.1 ["B", "daily", "01_01_2025.triaged.txt"] = true := by
  exact ⟨rfl, rfl, rfl, rfl⟩

/-! ## Claim C6 -/

/-- Claim C6 counterexample: a PNG source strictly newer (mtime 2) than its
existing analysis (mtime 1) but lacking its converted sidecar is not
re-included — the batch loader filters it out and ends up raising — while
the claim's condition (source mtime greater than analysis mtime) holds. -/
theorem c6_stale_visual_without_sidecar_skipped :
    mtimeOf (pngNoSide 2 1) ["A", "20250101_120000.png"] = some 2 ∧
    mtimeOf (pngNoSide 2 1) ["A", "daily", "01_01_2025.triaged.txt"] = some 1 ∧
    loadAllUsb (pngNoSide 2 1) cfgUsbOnly "daily" "png" =
      .error "No unanalyzed notes files found in any configured input directory" := by
  exact ⟨rfl, rfl, rfl⟩

theorem needsRe_textState (nm am : Nat) :
    needsReanalysisUsb (textState nm am) ["A", "20250101_120000.txt"]
      ["A", "daily", "01_01_2025.triaged.txt"] = decide (am < nm) := by
  rw [show needsReanalysisUsb (textState nm am) ["A", "20250101_120000.txt"]
    ["A", "daily", "01_01_2025.triaged.txt"] = (decide (am < nm) || false) from rfl,
    Bool.or_false]

theorem needsRe_pngState (nm am sm : Nat) :
    needsReanalysisUsb (pngState nm am sm) ["A", "20250101_120000.png"]
      ["A", "daily", "01_01_2025.triaged.txt"] = (decide (am < nm) || decide (am < sm)) := rfl

theorem needsRe_pngNoSide (nm am : Nat) :
    needsReanalysisUsb (pngNoSide nm am) ["A", "20250101_120000.png"]
      ["A", "daily", "01_01_2025.triaged.txt"] = decide (am < nm) := by
  rw [show needsReanalysisUsb (pngNoSide nm am) ["A", "20250101_120000.png"]
    ["A", "daily", "01_01_2025.triaged.txt"] = (decide (am < nm) || false) from rfl,
    Bool.or_false]

theorem loadAll_textState (nm am : Nat) :
    loadAllUsb (textState nm am) cfgUsbOnly "daily" "txt" =
      if am < nm then
        .ok [⟨"notes", ["A", "20250101_120000.txt"], ⟨2025, 1, 1, 12, 0, 0⟩⟩]
      else .error "No unanalyzed notes files found in any configured input directory" := by
  have hev : evalBatchCandidateUsb (textState nm am) "daily" ["A"] [] "20250101_120000.txt" =
      (if needsReanalysisUsb (textState nm am) ["A", "20250101_120000.txt"]
          ["A", "daily", "01_01_2025.triaged.txt"] = true then
        some ("20250101_120000",
          ⟨"notes", ["A", "20250101_120000.txt"], ⟨2025, 1, 1, 12, 0, 0⟩⟩)
      else none) := rfl
  rw [needsRe_textState] at hev
  by_cases h : am < nm
  · rw [if_pos h]
    rw [if_pos (by simp [h])] at hev
    rw [show loadAllUsb (textState nm am) cfgUsbOnly "daily" "txt" =
      (if (scanAllUsb (textState nm am) cfgUsbOnly "daily" "txt").1.isEmpty = true then
        (.error "No unanalyzed notes files found in any configured input directory" :
          Except String (List LoadedItem))
      else .ok (scanAllUsb (textState nm am) cfgUsbOnly "daily" "txt").1) from rfl]
    rw [show scanAllUsb (textState nm am) cfgUsbOnly "daily" "txt" =
      processFileUsb (textState nm am) "daily" ["A"] ([], []) "20250101_120000.txt" from rfl]
    rw [show processFileUsb (textState nm am) "daily" ["A"] ([], []) "20250101_120000.txt" =
      (match evalBatchCandidateUsb (textState nm am) "daily" ["A"] [] "20250101_120000.txt" with
        | none => (([], []) : List LoadedItem × List String)
        | some (ts, it) => ([it], [ts])) from rfl]
    rw [hev]
    rfl
  · rw [if_neg h]
    rw [if_neg (by simp [h])] at hev
    rw [show loadAllUsb (textState nm am) cfgUsbOnly "daily" "txt" =
      (if (scanAllUsb (textState nm am) cfgUsbOnly "daily" "txt").1.isEmpty = true then
        (.error "No unanalyzed notes files found in any configured input directory" :
          Except String (List LoadedItem))
      else .ok (scanAllUsb (textState nm am) cfgUsbOnly "daily" "txt").1) from rfl]
    rw [show scanAllUsb (textState nm am) cfgUsbOnly "daily" "txt" =
      processFileUsb (textState nm am) "daily" ["A"] ([], []) "20250101_120000.txt" from rfl]
    rw [show processFileUsb (textState nm am) "daily" ["A"] ([], []) "20250101_120000.txt" =
      (match evalBatchCandidateUsb (textState nm am) "daily" ["A"] [] "20250101_120000.txt" with
        | none => (([], []) : List LoadedItem × List String)
        | some (ts, it) => ([it], [ts])) from rfl]
    rw [hev]
    rfl

theorem loadAll_pngState (nm am sm : Nat) :
    loadAllUsb (pngState nm am sm) cfgUsbOnly "daily" "png" =
      if am < nm ∨ am < sm then
        .ok [⟨"raw", ["A", "20250101_120000.png"], ⟨2025, 1, 1, 12, 0, 0⟩⟩]
      else .error "No unanalyzed notes files found in any configured input directory" := by
  have hev : evalBatchCandidateUsb (pngState nm am sm) "daily" ["A"] [] "20250101_120000.png" =
      (if needsReanalysisUsb (pngState nm am sm) ["A", "20250101_120000.png"]
          ["A", "daily", "01_01_2025.triaged.txt"] = true then
        some ("20250101_120000",
          ⟨"raw", ["A", "20250101_120000.png"], ⟨2025, 1, 1, 12, 0, 0⟩⟩)
      else none) := rfl
  rw [needsRe_pngState] at hev
  by_cases h : am < nm ∨ am < sm
  · rw [if_pos h]
    rw [if_pos (by
      rcases h with h | h
      · simp [h]
      · simp [h])] at hev
    rw [show loadAllUsb (pngState nm am sm) cfgUsbOnly "daily" "png" =
      (if (scanAllUsb (pngState nm am sm) cfgUsbOnly "daily" "png").1.isEmpty = true then
        (.error "No unanalyzed notes files found in any configured input directory" :
          Except String (List LoadedItem))
      else .ok (scanAllUsb (pngState nm am sm) cfgUsbOnly "daily" "png").1) from rfl]
    rw [show scanAllUsb (pngState nm am sm) cfgUsbOnly "daily" "png" =
      processFileUsb (pngState nm am sm) "daily" ["A"] ([], []) "20250101_120000.png" from rfl]
    rw [show processFileUsb (pngState nm am sm) "daily" ["A"] ([], []) "20250101_120000.png" =
      (match evalBatchCandidateUsb (pngState nm am sm) "daily" ["A"] [] "20250101_120000.png" with
        | none => (([], []) : List LoadedItem × List String)
        | some (ts, it) => ([it], [ts])) from rfl]
    rw [hev]
    rfl
  · rw [if_neg h]
    push_neg at h
    rw [if_neg (by simp [Nat.not_lt.mpr h.1, Nat.not_lt.mpr h.2])] at hev
    rw [show loadAllUsb (pngState nm am sm) cfgUsbOnly "daily" "png" =
      (if (scanAllUsb (pngState nm am sm) cfgUsbOnly "daily" "png").1.isEmpty = true then
        (.error "No unanalyzed notes files found in any configured input directory" :
          Except String (List LoadedItem))
      else .ok (scanAllUsb (pngState nm am sm) cfgUsbOnly "daily" "png").1) from rfl]
    rw [show scanAllUsb (pngState nm am sm) cfgUsbOnly "daily" "png" =
      processFileUsb (pngState nm am sm) "daily" ["A"] ([], []) "20250101_120000.png" from rfl]
    rw [show processFileUsb (pngState nm am sm) "daily" ["A"] ([], []) "20250101_120000.png" =
      (match evalBatchCandidateUsb (pngState nm am sm) "daily" ["A"] [] "20250101_120000.png" with
        | none => (([], []) : List LoadedItem × List String)
        | some (ts, it) => ([it], [ts])) from rfl]
    rw [hev]
    rfl

theorem loadAll_pngNoSide (nm am : Nat) :
    loadAllUsb (pngNoSide nm am) cfgUsbOnly "daily" "png" =
      .error "No unanalyzed notes files found in any configured input directory" := by
  have hev : evalBatchCandidateUsb (pngNoSide nm am) "daily" ["A"] [] "20250101_120000.png" =
      (if needsReanalysisUsb (pngNoSide nm am) ["A", "20250101_120000.png"]
          ["A", "daily", "01_01_2025.triaged.txt"] = true then none else none) := rfl
  rw [ite_self] at hev
  rw [show loadAllUsb (pngNoSide nm am) cfgUsbOnly "daily" "png" =
    (if (scanAllUsb (pngNoSide nm am) cfgUsbOnly "daily" "png").1.isEmpty = true then
      (.error "No unanalyzed notes files found in any configured input directory" :
        Except String (List LoadedItem))
    else .ok (scanAllUsb (pngNoSide nm am) cfgUsbOnly "daily" "png").1) from rfl]
  rw [show scanAllUsb (pngNoSide nm am) cfgUsbOnly "daily" "png" =
    processFileUsb (pngNoSide nm am) "daily" ["A"] ([], []) "20250101_120000.png" from rfl]
  rw [show processFileUsb (pngNoSide nm am) "daily" ["A"] ([], []) "20250101_120000.png" =
    (match evalBatchCandidateUsb (pngNoSide nm am) "daily" ["A"] [] "20250101_120000.png" with
      | none => (([], []) : List LoadedItem × List String)
      | some (ts, it) => ([it], [ts])) from rfl]
  rw [hev]
  rfl

/-- Claim C6 amended: for a source file whose daily analysis exists, the
staleness decision `_needs_reanalysis_usb` is exactly "source mtime
strictly greater than analysis mtime, or, for visual kinds, sidecar
present and strictly newer than the analysis"; the batch loader re-includes
the file iff that decision holds AND, for visual kinds, the converted
sidecar exists (a visual file without its sidecar is never re-included, for
all mtimes); and a re-included file's new analysis is saved at the same
canonical filename the existence check consults, overwriting in place.
All parts are quantified over all source, analysis and sidecar mtimes. -/
theorem c6_reanalysis_characterization (nm am sm t : Nat) (analysis : String) :
    needsReanalysisUsb (textState nm am) ["A", "20250101_120000.txt"]
      ["A", "daily", "01_01_2025.triaged.txt"] = decide (am < nm) ∧
    needsReanalysisUsb (pngState nm am sm) ["A", "20250101_120000.png"]
      ["A", "daily", "01_01_2025.triaged.txt"] = (decide (am < nm) || decide (am < sm)) ∧
    needsReanalysisUsb (pngNoSide nm am) ["A", "20250101_120000.png"]
      ["A", "daily", "01_01_2025.triaged.txt"] = decide (am < nm) ∧
    (saveAnalysisUsb (textState nm am) analysis ["A", "20250101_120000.txt"] "daily" t).2 =
      ["A", "daily", "01_01_2025.triaged.txt"] ∧
    loadAllUsb (textState nm am) cfgUsbOnly "daily" "txt" =
      (if am < nm then
        .ok [⟨"notes", ["A", "20250101_120000.txt"], ⟨2025, 1, 1, 12, 0, 0⟩⟩]
      else .error "No unanalyzed notes files found in any configured input directory") ∧
    loadAllUsb (pngState nm am sm) cfgUsbOnly "daily" "png" =
      (if am < nm ∨ am < sm then
        .ok [⟨"raw", ["A", "20250101_120000.png"], ⟨2025, 1, 1, 12, 0, 0⟩⟩]
      else .error "No unanalyzed notes files found in any configured input directory") ∧
    loadAllUsb (pngNoSide nm am) cfgUsbOnly "daily" "png" =
      .error "No unanalyzed notes files found in any configured input directory" :=
  ⟨needsRe_textState nm am, needsRe_pngState nm am sm, needsRe_pngNoSide nm am, rfl,
    loadAll_textState nm am, loadAll_pngState nm am sm, loadAll_pngNoSide nm am⟩

/-! ## Claim C8 -/

/-- Claim C8 counterexample: Monday 2025-01-06 and Friday 2025-01-10 lie in
the same Monday-to-Friday work week (equal week boundaries), yet the
`weekN_MM_YYYY` name of the reconciliation existence check differs between
them (`week1_01_2025` versus `week2_01_2025`), because `_get_week_of_month`
buckets by day of month, not by week start. -/
theorem c8_same_week_different_names :
    daysFromCivil 2025 1 6 = 20097 ∧ daysFromCivil 2025 1 10 = 20101 ∧
    getWeekBoundaries (20097 * usPerDay) = getWeekBoundaries (20101 * usPerDay) ∧
    analysisDateStr "weekly" 2025 1 6 = "week1_01_2025" ∧
    analysisDateStr "weekly" 2025 1 10 = "week2_01_2025" ∧
    analysisDateStr "weekly" 2025 1 6 ≠ analysisDateStr "weekly" 2025 1 10 := by
  exact ⟨rfl, rfl, rfl, rfl, rfl, by decide⟩

/-- Claim C8 amended: the `weekN_MM_YYYY` weekly name is a pure function of
the date's year, month and week-of-month bucket (days 1-7, 8-14, 15-21,
22-31): any two dates agreeing on those three produce the same filename.
It is not a function of the work-week start: dates in one Monday-to-Friday
week can produce different names (see the counterexample). -/
theorem c8_weekname_function_of_bucket (y m d1 d2 : Nat)
    (h : getWeekOfMonth d1 = getWeekOfMonth d2) :
    analysisDateStr "weekly" y m d1 = analysisDateStr "weekly" y m d2 := by
  simp [analysisDateStr, h]

/-- Witness for the amended C8 at days 8 and 14 of January 2025 (both in
bucket 2). -/
theorem c8_weekname_function_of_bucket_witness :
    getWeekOfMonth 8 = getWeekOfMonth 14 ∧
    analysisDateStr "weekly" 2025 1 8 = analysisDateStr "weekly" 2025 1 14 :=
  ⟨by decide, c8_weekname_function_of_bucket 2025 1 8 14 (by decide)⟩

/-! ## Claim C9 -/

/-- Two page files of one logical note (timestamp `20250101_090000`), no
sidecar. -/
def fsTwoPages : FS :=
  ⟨[⟨["A", "20250101_090000_Page_1.png"], 0, "b1"⟩,
    ⟨["A", "20250101_090000_Page_2.png"], 0, "b2"⟩], [["A"]]⟩

/-- An extraction collaborator that raises on the first page and succeeds
on the second. -/
def extFailFirst : String → Except String String :=
  fun n => if n = "20250101_090000_Page_1.png" then .error "Failed to convert" else .ok "PAGE2TEXT"

/-- Claim C9 counterexample: when extraction of the lexicographically first
page raises, the timestamp is not marked processed, so extraction is
invoked a second time on the second page and the shared sidecar ends up
holding the second page's text — contradicting "invokes text extraction
exactly once, on the lexicographically first page file only". -/
theorem c9_failed_first_page_two_extractions :
    (convertVisualFiles fsTwoPages ["A"] extFailFirst 5).2.2.2 =
      ["20250101_090000_Page_1.png", "20250101_090000_Page_2.png"] ∧
    readText (convertVisualFiles fsTwoPages ["A"] extFailFirst 5).1
      ["A", "20250101_090000.raw_notes.txt"] = some "PAGE2TEXT" ∧
    (convertVisualFiles fsTwoPages ["A"] extFailFirst 5).2.1 =
      ⟨1, 0, ["Failed to convert"]⟩ := by
  exact ⟨rfl, rfl, rfl⟩

theorem convertStep_skip (dir : List String) (extract : String → Except String String)
    (now : Nat) (ts : String) (fsx : FS) (c s : Nat) (errs : List String)
    (processed calls : List String) (r : String)
    (hr : extractTimestamp r = some ts)
    (hmem : (processed.any (fun x => decide (x = ts))) = true) :
    convertStep dir extract now (fsx, ⟨c, s, errs⟩, processed, calls) r =
      (fsx, ⟨c, s + 1, errs⟩, processed, calls) := by
  unfold convertStep
  simp [hr, hmem]

theorem convert_skip_rest (dir : List String) (extract : String → Except String String)
    (now : Nat) (ts : String) (rest : List String) (fsx : FS) (c s : Nat)
    (errs : List String) (processed calls : List String)
    (hmem : (processed.any (fun x => decide (x = ts))) = true)
    (hts : ∀ n ∈ rest, extractTimestamp n = some ts) :
    rest.foldl (convertStep dir extract now) (fsx, ⟨c, s, errs⟩, processed, calls) =
      (fsx, ⟨c, s + rest.length, errs⟩, processed, calls) := by
  induction rest generalizing s with
  | nil => simp
  | cons r rs ih =>
    rw [List.foldl_cons,
      convertStep_skip dir extract now ts fsx c s errs processed calls r
        (hts r (List.mem_cons_self _ _)) hmem,
      ih (s + 1) (fun n hn => hts n (List.mem_cons_of_mem _ hn))]
    have harith : s + 1 + rs.length = s + (r :: rs).length := by
      simp [List.length_cons]
      omega
    rw [harith]

theorem find?_fsWriteFiles_ne (l : List FSFile) (p q : List String) (c : String) (t : Nat)
    (h : ¬q = p) :
    (fsWriteFiles l p c t).find? (fun f => decide (f.path = q)) =
      l.find? (fun f => decide (f.path = q)) := by
  have hpq : ¬p = q := fun hh => h hh.symm
  induction l with
  | nil =>
    simp [fsWriteFiles, List.find?, hpq]
  | cons f fl ih =>
    by_cases hf : f.path = p
    · simp only [fsWriteFiles, if_pos hf, List.find?]
      have h1 : (decide (p = q)) = false := by simp [hpq]
      have h2 : (decide (f.path = q)) = false := by simp [hf, hpq]
      rw [h1, h2]
    · simp only [fsWriteFiles, if_neg hf, List.find?]
      cases hd : decide (f.path = q) with
      | true => rfl
      | false => exact ih

theorem lookupFile_fsWrite_ne (fs : FS) (p q : List String) (c : String) (t : Nat)
    (h : ¬q = p) : lookupFile (fsWrite fs p c t) q = lookupFile fs q := by
  unfold lookupFile fsWrite
  exact find?_fsWriteFiles_ne fs.files p q c t h

/-- Original files are never rewritten by the conversion pass (in
particular, an existing sidecar is never overwritten). -/
theorem convert_preserves_existing (fs : FS) (dir : List String)
    (extract : String → Except String String) (now : Nat) (p : List String)
    (hp : fsExists fs p = true) :
    lookupFile (convertVisualFiles fs dir extract now).1 p = lookupFile fs p := by
  unfold convertVisualFiles
  by_cases hd : (!existsDir fs dir) = true
  · rw [if_pos hd]
  · rw [if_neg hd]
    have main : ∀ st : FS × ConvStats × List String × List String,
        lookupFile st.1 p = lookupFile fs p →
        lookupFile ((sortAscStr ((listDir fs dir).filter isVisualName)).foldl
          (convertStep dir extract now) st).1 p = lookupFile fs p := by
      intro st hst
      refine foldl_preserves (fun st => lookupFile st.1 p = lookupFile fs p)
        (convertStep dir extract now) _ st hst ?_
      intro s name hs
      unfold convertStep
      cases hx : extractTimestamp name with
      | none => simpa [hx] using hs
      | some ts =>
        simp only [hx]
        by_cases h1 : (s.2.2.1.any (fun x => decide (x = ts))) = true
        · rw [if_pos h1]; exact hs
        · rw [if_neg h1]
          by_cases h2 : fsExists s.1 (dir ++ [ts ++ ".raw_notes.txt"]) = true
          · rw [if_pos h2]; exact hs
          · rw [if_neg h2]
            cases hx2 : extract name with
            | error e => simp only [hx2]; exact hs
            | ok txt =>
              simp only [hx2]
              have hq : ¬p = dir ++ [ts ++ ".raw_notes.txt"] := by
                intro hh
                apply h2
                unfold fsExists
                rw [← hh, hs]
                unfold fsExists at hp
                exact hp
              exact (lookupFile_fsWrite_ne s.1 _ p txt now hq).trans hs
    exact main (fs, ⟨0, 0, []⟩, [], []) rfl

/-- Claim C9 amended: provided extraction of the lexicographically first
page file succeeds, `convert_visual_files_in_directory` invokes extraction
exactly once, on that first page only, writes the shared sidecar with that
page's text, counts every remaining page of the timestamp as skipped and
records no errors; and (unconditionally) a file that already exists — in
particular an existing sidecar — is never overwritten. -/
theorem c9_convert_first_page_amended (fs : FS) (dir : List String)
    (extract : String → Except String String) (now : Nat)
    (ts p1 txt : String) (rest : List String)
    (hdir : existsDir fs dir = true)
    (hlist : sortAscStr ((listDir fs dir).filter isVisualName) = p1 :: rest)
    (hts : ∀ n ∈ p1 :: rest, extractTimestamp n = some ts)
    (hside : fsExists fs (dir ++ [ts ++ ".raw_notes.txt"]) = false)
    (hok : extract p1 = .ok txt) :
    convertVisualFiles fs dir extract now =
      (fsWrite fs (dir ++ [ts ++ ".raw_notes.txt"]) txt now,
        ⟨1, rest.length, []⟩, [ts], [p1]) ∧
    (∀ fs2 dir2 ex2 now2 q, fsExists fs2 q = true →
      lookupFile (convertVisualFiles fs2 dir2 ex2 now2).1 q = lookupFile fs2 q) := by
  constructor
  · unfold convertVisualFiles
    rw [if_neg (by rw [hdir]; decide), hlist, List.foldl_cons]
    have hstep1 : convertStep dir extract now (fs, ⟨0, 0, []⟩, [], []) p1 =
        (fsWrite fs (dir ++ [ts ++ ".raw_notes.txt"]) txt now, ⟨1, 0, []⟩, [ts], [p1]) := by
      unfold convertStep
      simp [hts p1 (List.mem_cons_self _ _), hside, hok]
    rw [hstep1,
      convert_skip_rest dir extract now ts rest _ 1 0 [] [ts] [p1] (by simp)
        (fun n hn => hts n (List.mem_cons_of_mem _ hn))]
    simp
  · intro fs2 dir2 ex2 now2 q hq
    exact convert_preserves_existing fs2 dir2 ex2 now2 q hq

/-- Witness for the amended C9: the two-page state with a succeeding
extractor satisfies every hypothesis, and the theorem computes the
conversion result (one call, on the first page; one converted; one
skipped) and preserves an existing file of a second state. -/
theorem c9_convert_first_page_amended_witness :
    convertVisualFiles fsTwoPages ["A"] (fun _ => .ok "PAGE1TEXT") 5 =
      (fsWrite fsTwoPages ["A", "20250101_090000.raw_notes.txt"] "PAGE1TEXT" 5,
        ⟨1, 1, []⟩, ["20250101_090000"], ["20250101_090000_Page_1.png"]) := by
  have h := c9_convert_first_page_amended fsTwoPages ["A"] (fun _ => .ok "PAGE1TEXT") 5
    "20250101_090000" "20250101_090000_Page_1.png" "PAGE1TEXT"
    ["20250101_090000_Page_2.png"] (by decide) (by decide)
    (by
      intro n hn
      simp only [List.mem_cons, List.mem_singleton] at hn
      rcases hn with hn | hn | hn
      · rw [hn]; decide
      · rw [hn]; decide
      · exact absurd hn (by simp))
    (by decide) rfl
  exact h.1

/-! ## Claim C10 -/

/-- Claim C10: `parse_filename_datetime` is total by construction (it is a
function into `Option`, modelling that every `ValueError` is caught) and
tries its patterns in the fixed order 15-character timestamp, then 8-, 6-
and 4-digit runs (the very shape of `parseFilenameDatetimeL`).  On any
analysis filename `DD_MM_YYYY.triaged.txt` — two digits, underscore, two
digits, underscore, four digits spelling a positive year — only the
4-digit pattern matches (the digit runs have lengths 2, 2 and 4), and the
result is January 1 of that year at midnight; consequently the Google
Drive monthly collection's date-range filter accepts every such weekly
file exactly when January 1 of its year lies in the month window, i.e. it
classifies the file as dated January 1. -/
theorem c10_ddmmyyyy_parses_to_january_first (a b c d e f g h : Char)
    (ha : a.isDigit = true) (hb : b.isDigit = true) (hc : c.isDigit = true)
    (hd : d.isDigit = true) (he : e.isDigit = true) (hf : f.isDigit = true)
    (hg : g.isDigit = true) (hh : h.isDigit = true)
    (hy : 0 < digitsVal [e, f, g, h]) :
    parseFilenameDatetimeL ([a, b, '_', c, d, '_', e, f, g, h] ++ ".triaged.txt".data) =
      some ⟨digitsVal [e, f, g, h], 1, 1, 0, 0, 0⟩ ∧
    parseFilenameDatetime "06_01_2025.triaged.txt" = some ⟨2025, 1, 1, 0, 0, 0⟩ ∧
    (∀ ms me : Nat,
      gdriveMonthlyFileAccepted ms me "06_01_2025.triaged.txt" =
        (decide (ms ≤ daysFromCivil 2025 1 1 * usPerDay) &&
          decide (daysFromCivil 2025 1 1 * usPerDay ≤ me))) := by
  refine ⟨?_, rfl, fun ms me => rfl⟩
  have hy' : 1 ≤ digitsVal [e, f, g, h] := hy
  have hu : ('_').isDigit = false := by decide
  have hq1 : ('.').isDigit = false := by decide
  have hq2 : ('t').isDigit = false := by decide
  have hq3 : ('r').isDigit = false := by decide
  have hq4 : ('i').isDigit = false := by decide
  have hq5 : ('a').isDigit = false := by decide
  have hq6 : ('g').isDigit = false := by decide
  have hq7 : ('e').isDigit = false := by decide
  have hq8 : ('d').isDigit = false := by decide
  have hq9 : ('x').isDigit = false := by decide
  simp [parseFilenameDatetimeL, tryPat15, tryPat8, tryPat6, tryPat4,
    searchWindow, matchTs15, matchDigits, takeDigits,
    ha, hb, hc, hd, he, hf, hg, hh, hu, hq1, hq2, hq3, hq4, hq5, hq6, hq7, hq8, hq9, hy']

/-- Witness for C10 at the concrete weekly analysis name
`06_01_2025.triaged.txt` (digit hypotheses and the positive-year
hypothesis discharged by computation). -/
theorem c10_ddmmyyyy_parses_to_january_first_witness :
    ('0').isDigit = true ∧ 0 < digitsVal ['2', '0', '2', '5'] ∧
    parseFilenameDatetimeL (['0', '6', '_', '0', '1', '_', '2', '0', '2', '5'] ++
      ".triaged.txt".data) = some ⟨2025, 1, 1, 0, 0, 0⟩ := by
  refine ⟨by decide, by decide, ?_⟩
  have h := (c10_ddmmyyyy_parses_to_january_first '0' '6' '0' '1' '2' '0' '2' '5'
    (by decide) (by decide) (by decide) (by decide) (by decide) (by decide)
    (by decide) (by decide) (by decide)).1
  exact h

end TaskTriage
